import Mathlib

/-!
# StateMachine (Stm.cpp / Stm.h): shallow embedding and verification

The engine of `Stm.cpp` keeps one static registry `s_strage` of at most
`STM_MAX_NUM` machine objects.  The embedding passes that registry explicitly.

* `int16_t` values are `Int`; every place where the C code converts a wider
  value to `int16_t` applies `wrap16` (two's complement, modulo `2^16`).
* An access outside an array (the instance pool, an axis, the table) has no
  defined result in C; the embedding returns `none` there, so `some r` means
  "the call returned `r`".
* Pointers to caller-owned arrays are the lists they point to; the null pointer
  of the zero-initialised registry is the empty list.
* An action is a function of its three arguments that does not call back into
  the engine; the dispatcher also records every invocation it makes in a
  trace.
-/

namespace Stm

/-! ## Constants (Stm.h) -/

def STM_OK : Int := 0
def STM_NOT_ENOUGH_MEMORY : Int := -1
def STM_RANGE_ERROR : Int := -2
def STM_NO_ACTION : Int := -3
def STM_NO_NEXT_STATE : Int := -4

def STM_MAX_NUM : Int := 8
def STM_AMBIGUOUS : Int := -1

/-- Macro `STM_IS_ERROR(resultValue)`: `(resultValue) < 0`. -/
def STM_IS_ERROR (resultValue : Int) : Bool := decide (resultValue < 0)

/-! ## Machine integers -/

/-- Conversion of an integer to `int16_t`: the value modulo `2^16` taken in
`-32768 .. 32767`. -/
def wrap16 (x : Int) : Int := (x + 32768) % 65536 - 32768

/-- Conversion of an integer to `size_t` (64 bit): the value modulo `2^64`. -/
def toSizeT (x : Int) : Int := x % 18446744073709551616

/-- The values an `int16_t` can hold. -/
def IsInt16 (x : Int) : Prop := -32768 ≤ x ∧ x ≤ 32767

instance (x : Int) : Decidable (IsInt16 x) :=
  inferInstanceAs (Decidable (-32768 ≤ x ∧ x ≤ 32767))

/-! ## Types (Stm.h, Stm.cpp) -/

/-- Type `STM_PF_ACTION` without the null pointer:
`int16_t (*)(int16_t currentStateID, int16_t nextStateID, int16_t eventID)`. -/
abbrev STM_PF_ACTION := Int → Int → Int → Int

/-- One cell of the transition table; `action = none` is the null pointer. -/
structure STM_CELL where
  action : Option STM_PF_ACTION
  nextStateID : Int

/-- Struct `STM_OBJECT`: a machine instance.  `matrix`, `stateList` and
`eventList` are the arrays the three pointers point to. -/
structure STM_OBJECT where
  matrix : List STM_CELL
  stateList : List Int
  eventList : List Int
  stateNum : Int
  eventNum : Int
  stateID : Int

/-- Struct `STM_STORAGE`: the pool `stmObjects[STM_MAX_NUM]` and the number of
machines created so far. -/
structure STM_STORAGE where
  stmObjects : Fin 8 → STM_OBJECT
  stmNum : Int

/-- A zero-initialised `STM_OBJECT` (null pointers, all numbers zero). -/
def STM_OBJECT.zero : STM_OBJECT :=
  { matrix := [], stateList := [], eventList := [],
    stateNum := 0, eventNum := 0, stateID := 0 }

/-- The registry `s_strage` at program start: static storage is
zero-initialised. -/
def STM_STORAGE.empty : STM_STORAGE :=
  { stmObjects := fun _ => STM_OBJECT.zero, stmNum := 0 }

/-- The element `stmObjects[stmID]` of the pool, when `stmID` is inside the
array bounds `0 .. STM_MAX_NUM - 1`; `none` for an index outside the array. -/
def slotOf (stmID : Int) : Option (Fin 8) :=
  if h : 0 ≤ stmID ∧ stmID < 8 then some ⟨stmID.toNat, (Int.toNat_lt h.1).2 h.2⟩
  else none

/-- The assignment `self->stateID = stateID` for `self = &stmObjects[i]`. -/
def STM_STORAGE.writeStateID (s : STM_STORAGE) (i : Fin 8) (stateID : Int) :
    STM_STORAGE :=
  { s with stmObjects := fun j =>
      if j = i then { s.stmObjects i with stateID := stateID } else s.stmObjects j }

/-! ## Functions (Stm.cpp) -/

/-- Function `STM_Create`.  Returns the value returned by the C function and
the registry afterwards. -/
def STM_Create (s : STM_STORAGE) (matrix : List STM_CELL)
    (stateList : List Int) (stateNum : Int)
    (eventList : List Int) (eventNum : Int)
    (initialStateID : Int) : Option (Int × STM_STORAGE) :=
  let stmID := s.stmNum
  if STM_MAX_NUM ≤ stmID then
    some (STM_NOT_ENOUGH_MEMORY, s)
  else
    match slotOf stmID with
    | none => none
    | some i =>
      let self : STM_OBJECT :=
        { matrix := matrix, stateList := stateList, eventList := eventList,
          stateNum := stateNum, eventNum := eventNum, stateID := initialStateID }
      some (stmID,
        { stmObjects := fun j => if j = i then self else s.stmObjects j,
          stmNum := wrap16 (s.stmNum + 1) })

/-- The loop of `STM_GetIndex` with `remaining` iterations left and loop
counter `i`: reads `array[i]`, stops at the first element equal to
`searchKey`. -/
def STM_GetIndex.loop (array : List Int) (searchKey : Int) :
    (remaining : Nat) → (i : Nat) → Option Int
  | 0, _ => some (-1)
  | remaining + 1, i =>
    match array[i]? with
    | none => none
    | some x =>
      if x = searchKey then some (wrap16 i)
      else STM_GetIndex.loop array searchKey remaining (i + 1)

/-- Function `STM_GetIndex`.  The loop runs while `i < (int16_t) arrayNum`
from `i = 0`, that is `(int16_t) arrayNum` times, or not at all when that
number is not positive. -/
def STM_GetIndex (array : List Int) (arrayNum : Int) (searchKey : Int) :
    Option Int :=
  STM_GetIndex.loop array searchKey (wrap16 arrayNum).toNat 0

/-- The element `matrix[index]` of the table; `none` outside the array. -/
def readCell (matrix : List STM_CELL) (index : Int) : Option STM_CELL :=
  if 0 ≤ index then matrix[index.toNat]? else none

/-- One invocation of an action by the dispatcher: the table index of the cell
whose action was called and the three arguments passed. -/
structure ActionCall where
  cellIndex : Int
  currentStateID : Int
  nextStateID : Int
  eventID : Int
deriving DecidableEq

/-- What a call of `STM_SetEvent` does: its return value, the registry
afterwards and the action invocations made, in order. -/
structure SetEventResult where
  ret : Int
  storage : STM_STORAGE
  calls : List ActionCall

/-- Function `STM_SetEvent`. -/
def STM_SetEvent (s : STM_STORAGE) (stmID eventID : Int) : Option SetEventResult :=
  if stmID < 0 ∨ STM_MAX_NUM ≤ stmID then
    some ⟨STM_RANGE_ERROR, s, []⟩
  else
    match slotOf stmID with
    | none => none
    | some i =>
      let self := s.stmObjects i
      match STM_GetIndex self.stateList (toSizeT self.stateNum) self.stateID with
      | none => none
      | some stateIndex =>
        if stateIndex < 0 ∨ self.stateNum ≤ stateIndex then
          some ⟨STM_RANGE_ERROR, s, []⟩
        else
          match STM_GetIndex self.eventList (toSizeT self.eventNum) eventID with
          | none => none
          | some eventIndex =>
            if eventIndex < 0 ∨ self.eventNum ≤ stateIndex then
              some ⟨STM_RANGE_ERROR, s, []⟩
            else
              let index := wrap16 (eventIndex * self.stateNum + stateIndex)
              match readCell self.matrix index with
              | none => none
              | some cell =>
                match cell.action with
                | none => some ⟨STM_NO_ACTION, s, []⟩
                | some action =>
                  let dynamicNextStateID := action self.stateID cell.nextStateID eventID
                  let nextStateID :=
                    if cell.nextStateID = STM_AMBIGUOUS then dynamicNextStateID
                    else cell.nextStateID
                  some ⟨STM_OK, s.writeStateID i nextStateID,
                    [⟨index, self.stateID, cell.nextStateID, eventID⟩]⟩

/-- Function `STM_GetState`.  Only `stmID >= STM_MAX_NUM` is rejected. -/
def STM_GetState (s : STM_STORAGE) (stmID : Int) : Option Int :=
  if STM_MAX_NUM ≤ stmID then
    some STM_RANGE_ERROR
  else
    match slotOf stmID with
    | none => none
    | some i => some (s.stmObjects i).stateID

/-- Function `STM_SetState`.  The range check only prints a message; the write
`stmObjects[stmID].stateID = stateID` follows in every case. -/
def STM_SetState (s : STM_STORAGE) (stmID stateID : Int) : Option STM_STORAGE :=
  match slotOf stmID with
  | none => none
  | some i => some (s.writeStateID i stateID)

/-- The value of the local variable `index` of `STM_SetEvent` (Stm.cpp line
160) when the call gets that far: the same steps as `STM_SetEvent` up to the
computation of the table index.  `none` when the call returns before it reads
the table, or when a scan leaves its axis array. -/
def STM_SetEvent.index (s : STM_STORAGE) (stmID eventID : Int) : Option Int :=
  if stmID < 0 ∨ STM_MAX_NUM ≤ stmID then
    none
  else
    match slotOf stmID with
    | none => none
    | some i =>
      let self := s.stmObjects i
      match STM_GetIndex self.stateList (toSizeT self.stateNum) self.stateID with
      | none => none
      | some stateIndex =>
        if stateIndex < 0 ∨ self.stateNum ≤ stateIndex then
          none
        else
          match STM_GetIndex self.eventList (toSizeT self.eventNum) eventID with
          | none => none
          | some eventIndex =>
            if eventIndex < 0 ∨ self.eventNum ≤ stateIndex then
              none
            else
              some (wrap16 (eventIndex * self.stateNum + stateIndex))

/-- The steps of `STM_SetEvent` after it has read the cell `matrix[index]`
(Stm.cpp lines 166 to 183): the null check of the action, the invocation, the
choice of the next state and the write of `self->stateID`. -/
def STM_SetEvent.onCell (s : STM_STORAGE) (i : Fin 8) (eventID index : Int)
    (cell : STM_CELL) : SetEventResult :=
  match cell.action with
  | none => ⟨STM_NO_ACTION, s, []⟩
  | some action =>
    let dynamicNextStateID := action (s.stmObjects i).stateID cell.nextStateID eventID
    let nextStateID :=
      if cell.nextStateID = STM_AMBIGUOUS then dynamicNextStateID
      else cell.nextStateID
    ⟨STM_OK, s.writeStateID i nextStateID,
      [⟨index, (s.stmObjects i).stateID, cell.nextStateID, eventID⟩]⟩

/-! ## Vocabulary of the specification -/

/-- The array holds at least `num` elements: reading its first `num` elements
stays inside the array. -/
def Readable (array : List Int) (num : Int) : Prop :=
  num.toNat ≤ array.length

/-- Identifier `key` occurs among the first `num` elements of `array`, the first
time at index `i`. -/
def OccursFirstAt (array : List Int) (num : Int) (key : Int) (i : Nat) : Prop :=
  i < num.toNat ∧ array[i]? = some key ∧ ∀ j, j < i → array[j]? ≠ some key

/-- Identifier `key` does not occur among the first `num` elements of `array`. -/
def Absent (array : List Int) (num : Int) (key : Int) : Prop :=
  ∀ j, j < num.toNat → array[j]? ≠ some key

/-- The axes of a machine are well formed: both counts are `int16_t` values and
each axis array holds as many elements as its count says (the caller's duty
in `STM_Create`). -/
def STM_OBJECT.AxesValid (o : STM_OBJECT) : Prop :=
  IsInt16 o.stateNum ∧ IsInt16 o.eventNum ∧
    Readable o.stateList o.stateNum ∧ Readable o.eventList o.eventNum

/-- Handle `h` was issued by a successful `STM_Create` and addresses slot `i`
of the pool: `0 ≤ h < stmNum` and `h < STM_MAX_NUM`. -/
def Created (s : STM_STORAGE) (h : Int) (i : Fin 8) : Prop :=
  slotOf h = some i ∧ h < s.stmNum

instance (array : List Int) (num : Int) : Decidable (Readable array num) :=
  inferInstanceAs (Decidable (num.toNat ≤ array.length))

instance (array : List Int) (num key : Int) (i : Nat) :
    Decidable (OccursFirstAt array num key i) :=
  inferInstanceAs (Decidable
    (i < num.toNat ∧ array[i]? = some key ∧ ∀ j, j < i → array[j]? ≠ some key))

instance (array : List Int) (num key : Int) : Decidable (Absent array num key) :=
  inferInstanceAs (Decidable (∀ j, j < num.toNat → array[j]? ≠ some key))

instance (o : STM_OBJECT) : Decidable o.AxesValid :=
  inferInstanceAs (Decidable (IsInt16 o.stateNum ∧ IsInt16 o.eventNum ∧
    Readable o.stateList o.stateNum ∧ Readable o.eventList o.eventNum))

instance (s : STM_STORAGE) (h : Int) (i : Fin 8) : Decidable (Created s h i) :=
  inferInstanceAs (Decidable (slotOf h = some i ∧ h < s.stmNum))

/-! ## Call sequences -/

/-- The arguments of one `STM_Create` call. -/
structure CreateArgs where
  matrix : List STM_CELL
  stateList : List Int
  stateNum : Int
  eventList : List Int
  eventNum : Int
  initialStateID : Int

/-- A call of one of the four operations of the engine. -/
inductive STM_CALL where
  | create (a : CreateArgs)
  | setEvent (stmID eventID : Int)
  | getState (stmID : Int)
  | setState (stmID stateID : Int)

/-- The handle passed to the call lies in `0 .. STM_MAX_NUM - 1` (a Create call
takes no handle). -/
def STM_CALL.HandleInRange : STM_CALL → Prop
  | .create _ => True
  | .setEvent stmID _ => 0 ≤ stmID ∧ stmID < STM_MAX_NUM
  | .getState stmID => 0 ≤ stmID ∧ stmID < STM_MAX_NUM
  | .setState stmID _ => 0 ≤ stmID ∧ stmID < STM_MAX_NUM

/-- The effect of one call: the value it returns (`none` for the `void`
function `STM_SetState`) and the registry afterwards. -/
def STM_CALL.exec (s : STM_STORAGE) : STM_CALL → Option (Option Int × STM_STORAGE)
  | .create a =>
    (STM_Create s a.matrix a.stateList a.stateNum a.eventList a.eventNum
      a.initialStateID).map fun r => (some r.1, r.2)
  | .setEvent stmID eventID =>
    (STM_SetEvent s stmID eventID).map fun r => (some r.ret, r.storage)
  | .getState stmID => (STM_GetState s stmID).map fun r => (some r, s)
  | .setState stmID stateID => (STM_SetState s stmID stateID).map fun s1 => (none, s1)

/-- The handle a call issued: the return value of a Create call that did not
fail. -/
def STM_CALL.issued : STM_CALL → Option Int → Option Int
  | .create _, some r => if 0 ≤ r then some r else none
  | _, _ => none

/-- Runs a sequence of calls from registry `s`: the handles issued by the
successful Create calls, in call order, and the final registry. -/
def run (s : STM_STORAGE) : List STM_CALL → Option (List Int × STM_STORAGE)
  | [] => some ([], s)
  | c :: cs =>
    match c.exec s with
    | none => none
    | some (r, s1) =>
      match run s1 cs with
      | none => none
      | some (hs, s2) =>
        match c.issued r with
        | none => some (hs, s2)
        | some h => some (h :: hs, s2)

/-- Registry states reachable from the zero-initialised registry by a finite
sequence of calls whose handles lie in `0 .. STM_MAX_NUM - 1`. -/
def Reachable (s : STM_STORAGE) : Prop :=
  ∃ calls hs, (∀ c ∈ calls, c.HandleInRange) ∧ run STM_STORAGE.empty calls = some (hs, s)

/-- Invariant of the registry along call sequences: the count lies in
`0 .. STM_MAX_NUM`, and every slot from index `stmNum` on still has the
`stateNum = 0` of the zero-initialised registry. -/
def PoolInv (s : STM_STORAGE) : Prop :=
  0 ≤ s.stmNum ∧ s.stmNum ≤ STM_MAX_NUM ∧
    ∀ j : Fin 8, s.stmNum ≤ ((j : Nat) : Int) → (s.stmObjects j).stateNum = 0

/-- The state ids a cell can produce are non-negative: its next-state field
when that is not `STM_AMBIGUOUS`, every value its action returns when it is. -/
def CellNonneg (c : STM_CELL) : Prop :=
  (c.nextStateID ≠ STM_AMBIGUOUS → 0 ≤ c.nextStateID) ∧
    (c.nextStateID = STM_AMBIGUOUS →
      ∀ a, c.action = some a → ∀ x y z : Int, 0 ≤ a x y z)

/-- Every state id the call hands to the engine is non-negative: the initial
state and the cells of the table of a Create call, the state of a SetState
call. -/
def STM_CALL.NonnegStates : STM_CALL → Prop
  | .create a => 0 ≤ a.initialStateID ∧ ∀ c ∈ a.matrix, CellNonneg c
  | .setEvent _ _ => True
  | .getState _ => True
  | .setState _ stateID => 0 ≤ stateID

/-- Every slot of the registry holds a non-negative current state and a table
that produces non-negative state ids only. -/
def StatesNonneg (s : STM_STORAGE) : Prop :=
  ∀ j, 0 ≤ (s.stmObjects j).stateID ∧ ∀ c ∈ (s.stmObjects j).matrix, CellNonneg c

/-- Registry `s1` differs from `s` at most in the current state of slot `i`:
the count, the table, both axes and both counts of every slot, and the
current state of every other slot are the same. -/
def FrameExceptState (s s1 : STM_STORAGE) (i : Fin 8) : Prop :=
  s1.stmNum = s.stmNum ∧
    ∀ j, (s1.stmObjects j).matrix = (s.stmObjects j).matrix ∧
      (s1.stmObjects j).stateList = (s.stmObjects j).stateList ∧
      (s1.stmObjects j).eventList = (s.stmObjects j).eventList ∧
      (s1.stmObjects j).stateNum = (s.stmObjects j).stateNum ∧
      (s1.stmObjects j).eventNum = (s.stmObjects j).eventNum ∧
      (j ≠ i → (s1.stmObjects j).stateID = (s.stmObjects j).stateID)

/-- The dispatch of event `e` on handle `h` gets as far as the table and
addresses `cell`: `h` lies in `0 .. STM_MAX_NUM - 1`, the current state occurs
in the state axis (first at `si`), `e` occurs in the event axis (first at
`ei`), `si < eventNum`, and `cell` is the element of the table at the index
the dispatcher computes from `ei * stateNum + si`. -/
def Addresses (s : STM_STORAGE) (h e : Int) (cell : STM_CELL) : Prop :=
  ∃ (i : Fin 8) (si ei : Nat), slotOf h = some i ∧
    OccursFirstAt (s.stmObjects i).stateList (s.stmObjects i).stateNum
      (s.stmObjects i).stateID si ∧
    OccursFirstAt (s.stmObjects i).eventList (s.stmObjects i).eventNum e ei ∧
    (si : Int) < (s.stmObjects i).eventNum ∧
    readCell (s.stmObjects i).matrix
      (wrap16 ((ei : Int) * (s.stmObjects i).stateNum + si)) = some cell

/-- The table of a machine covers its axes: it has at most 32768 cells by the
counts and the table array holds at least `eventNum * stateNum` cells. -/
def STM_OBJECT.TableValid (o : STM_OBJECT) : Prop :=
  o.eventNum * o.stateNum ≤ 32768 ∧ (o.eventNum * o.stateNum).toNat ≤ o.matrix.length

instance (o : STM_OBJECT) : Decidable o.TableValid :=
  inferInstanceAs (Decidable
    (o.eventNum * o.stateNum ≤ 32768 ∧ (o.eventNum * o.stateNum).toNat ≤ o.matrix.length))

/-! ## Fixtures -/

/-- Action `Nop` of StmTest.cpp (every action of the test returns 0). -/
def Nop : STM_PF_ACTION := fun _ _ _ => 0
/-- Action `Ban` of StmTest.cpp. -/
def Ban : STM_PF_ACTION := fun _ _ _ => 0
/-- Action `OnBtnT` of StmTest.cpp. -/
def OnBtnT : STM_PF_ACTION := fun _ _ _ => 0
/-- Action `OnBtnJ` of StmTest.cpp. -/
def OnBtnJ : STM_PF_ACTION := fun _ _ _ => 0
/-- Action `OnDown` of StmTest.cpp. -/
def OnDown : STM_PF_ACTION := fun _ _ _ => 0
/-- Action `OnSet` of StmTest.cpp. -/
def OnSet : STM_PF_ACTION := fun _ _ _ => 0

/-- The state axis `stateList` of StmTest.cpp: `ST_Tt .. ST_Kj` are `0 .. 5`. -/
def testStateList : List Int := [0, 1, 2, 3, 4, 5]
/-- The event axis `eventList` of StmTest.cpp: `EV_BtnT .. EV_Clr` are `0 .. 7`. -/
def testEventList : List Int := [0, 1, 2, 3, 4, 5, 6, 7]

/-- The table `stm` of StmTest.cpp: 8 event rows of 6 state columns. -/
def testTable : List STM_CELL :=
  [ ⟨some Nop, 0⟩, ⟨some OnBtnT, 0⟩, ⟨some Nop, 2⟩, ⟨some Nop, 3⟩, ⟨some Nop, 4⟩, ⟨some Nop, 5⟩,
    ⟨some OnBtnJ, 3⟩, ⟨some Nop, 1⟩, ⟨some Nop, 2⟩, ⟨some Nop, 3⟩, ⟨some Nop, 4⟩, ⟨some Nop, 5⟩,
    ⟨some Ban, 0⟩, ⟨some Nop, 1⟩, ⟨some Nop, 2⟩, ⟨some Nop, 3⟩, ⟨some Nop, 4⟩, ⟨some Nop, 5⟩,
    ⟨some Ban, 0⟩, ⟨some Nop, 1⟩, ⟨some Nop, 2⟩, ⟨some Nop, 3⟩, ⟨some Nop, 4⟩, ⟨some Nop, 5⟩,
    ⟨some OnDown, 4⟩, ⟨some Nop, 1⟩, ⟨some Nop, 2⟩, ⟨some Nop, 3⟩, ⟨some Nop, 4⟩, ⟨some Nop, 5⟩,
    ⟨some Nop, 0⟩, ⟨some Nop, 1⟩, ⟨some Nop, 2⟩, ⟨some Nop, 3⟩, ⟨some Nop, 4⟩, ⟨some Nop, 5⟩,
    ⟨some OnSet, 4⟩, ⟨some Nop, 1⟩, ⟨some Nop, 2⟩, ⟨some Nop, 3⟩, ⟨some Nop, 4⟩, ⟨some Nop, 5⟩,
    ⟨some Nop, 0⟩, ⟨some Nop, 1⟩, ⟨some Nop, 2⟩, ⟨some Nop, 3⟩, ⟨some Nop, 4⟩, ⟨some Nop, 5⟩ ]

/-- The first Create call of StmTest.cpp (initial state `ST_Tt`). -/
def testArgs : CreateArgs :=
  { matrix := testTable, stateList := testStateList, stateNum := 6,
    eventList := testEventList, eventNum := 8, initialStateID := 0 }

/-- The machine object the first Create call of StmTest.cpp stores. -/
def testObject : STM_OBJECT :=
  { matrix := testTable, stateList := testStateList, eventList := testEventList,
    stateNum := 6, eventNum := 8, stateID := 0 }

/-- The registry after the first Create call of StmTest.cpp. -/
def testRegistry : STM_STORAGE :=
  { stmObjects := fun j => if j = 0 then testObject else STM_OBJECT.zero,
    stmNum := 1 }

/-- The machine object the second Create call of StmTest.cpp stores: the
initial state `0x0400` is not in the state axis. -/
def testObject2 : STM_OBJECT :=
  { matrix := testTable, stateList := testStateList, eventList := testEventList,
    stateNum := 6, eventNum := 8, stateID := 1024 }

/-- The registry after both Create calls of StmTest.cpp (the first machine
still in its initial state). -/
def testRegistry2 : STM_STORAGE :=
  { stmObjects := fun j =>
      if j = 1 then testObject2 else if j = 0 then testObject else STM_OBJECT.zero,
    stmNum := 2 }

/-- The second Create call of StmTest.cpp (initial state `0x0400`). -/
def testArgs2 : CreateArgs :=
  { matrix := testTable, stateList := testStateList, stateNum := 6,
    eventList := testEventList, eventNum := 8, initialStateID := 1024 }

/-- The calls made by `main` of StmTest.cpp, in order. -/
def testCalls : List STM_CALL :=
  [ .create testArgs, .getState 0, .setEvent 0 1, .getState 0,
    .setEvent 0 4096, .getState 0, .create testArgs2, .getState 1,
    .setState 1 0, .getState 1 ]

/-- What `main` of StmTest.cpp leaves behind: the handles its Create calls
returned and the final registry. -/
def testFinal : List Int × STM_STORAGE :=
  (run STM_STORAGE.empty testCalls).getD ([], STM_STORAGE.empty)

/-- The registry after 8 Create calls with the arguments of StmTest.cpp. -/
def fullRegistry : STM_STORAGE :=
  { stmObjects := fun _ => testObject, stmNum := 8 }

/-- An action that decides the next state itself: it returns state 11. -/
def pick11 : STM_PF_ACTION := fun _ _ _ => 11

/-- A table with more states (4 columns: 10, 11, 12, 13) than events (3 rows:
20, 21, 22).  Row 20 holds static cells, row 21 cells whose next state is
`STM_AMBIGUOUS`, row 22 cells without an action. -/
def wideTable : List STM_CELL :=
  [ ⟨some Nop, 10⟩, ⟨some Nop, 10⟩, ⟨some Nop, 10⟩, ⟨some Nop, 10⟩,
    ⟨some pick11, -1⟩, ⟨some pick11, -1⟩, ⟨some pick11, -1⟩, ⟨some pick11, -1⟩,
    ⟨none, 10⟩, ⟨none, 10⟩, ⟨none, 10⟩, ⟨none, 10⟩ ]

/-- A machine over `wideTable` whose current state 13 is the last state of the
axis (state index 3). -/
def wideObject : STM_OBJECT :=
  { matrix := wideTable, stateList := [10, 11, 12, 13], eventList := [20, 21, 22],
    stateNum := 4, eventNum := 3, stateID := 13 }

/-- The registry after `STM_Create(wideTable, {10,11,12,13}, 4, {20,21,22}, 3, 13)`
on the empty registry. -/
def wideRegistry : STM_STORAGE :=
  { stmObjects := fun j => if j = 0 then wideObject else STM_OBJECT.zero,
    stmNum := 1 }

/-- A state axis and an event axis of 182 distinct identifiers `0 .. 181`. -/
def bigAxis : List Int := (List.range 182).map (fun n : Nat => (n : Int))

/-- A table of `182 * 182 = 33124` cells, one for every event and state of
`bigAxis`. -/
def bigTable : List STM_CELL := List.replicate 33124 ⟨some Nop, 0⟩

/-- A machine over `bigTable` in the last state 181 of its axis. -/
def bigObject : STM_OBJECT :=
  { matrix := bigTable, stateList := bigAxis, eventList := bigAxis,
    stateNum := 182, eventNum := 182, stateID := 181 }

/-- The registry after `STM_Create(bigTable, bigAxis, 182, bigAxis, 182, 181)`
on the empty registry. -/
def bigRegistry : STM_STORAGE :=
  { stmObjects := fun j => if j = 0 then bigObject else STM_OBJECT.zero,
    stmNum := 1 }

/-- A Create call like the first one of StmTest.cpp, with the negative
initial state `-2`. -/
def negArgs : CreateArgs :=
  { matrix := testTable, stateList := testStateList, stateNum := 6,
    eventList := testEventList, eventNum := 8, initialStateID := -2 }

/-- The registry after the Create call `negArgs` on the empty registry. -/
def negRegistry : STM_STORAGE :=
  { stmObjects := fun j =>
      if j = 0 then { testObject with stateID := -2 } else STM_OBJECT.zero,
    stmNum := 1 }

/-! ## Machine integers: lemmas -/

theorem wrap16_of_isInt16 {x : Int} (h : IsInt16 x) : wrap16 x = x := by
  unfold IsInt16 at h
  unfold wrap16
  omega

theorem wrap16_toSizeT (x : Int) : wrap16 (toSizeT x) = wrap16 x := by
  unfold wrap16 toSizeT
  omega

theorem slotOf_eq_some {h : Int} {i : Fin 8} (hs : slotOf h = some i) :
    0 ≤ h ∧ h < 8 ∧ h = (i : Nat) := by
  unfold slotOf at hs
  split at hs
  · rename_i hr
    simp only [Option.some.injEq] at hs
    subst hs
    refine ⟨hr.1, hr.2, ?_⟩
    show h = ((h.toNat : Nat) : Int)
    omega
  · simp at hs

theorem slotOf_of_range {h : Int} (h0 : 0 ≤ h) (h8 : h < 8) :
    slotOf h = some ⟨h.toNat, (Int.toNat_lt h0).2 h8⟩ := by
  unfold slotOf
  rw [dif_pos ⟨h0, h8⟩]

/-! ## The axis index resolver -/

/-- The loop returns the first index holding the key when one lies in the
scanned window. -/
theorem getIndex_loop_found (array : List Int) (key : Int) :
    ∀ (remaining i j : Nat), i ≤ j → j < i + remaining →
      array[j]? = some key → (∀ m, i ≤ m → m < j → array[m]? ≠ some key) →
      STM_GetIndex.loop array key remaining i = some (wrap16 j) := by
  intro remaining
  induction remaining with
  | zero => intro i j hij hj; omega
  | succ k ih =>
    intro i j hij hj hkey hfirst
    unfold STM_GetIndex.loop
    by_cases hEq : i = j
    · subst hEq
      simp [hkey]
    · have hlt : i < j := by omega
      have hne := hfirst i (Nat.le_refl i) hlt
      have hjlen : j < array.length := by
        rcases Nat.lt_or_ge j array.length with h | h
        · exact h
        · rw [List.getElem?_eq_none h] at hkey
          cases hkey
      have hilen : i < array.length := by omega
      rw [List.getElem?_eq_getElem hilen] at hne ⊢
      have hx : array[i] ≠ key := fun h => hne (by rw [h])
      simp only [hx, if_false]
      exact ih (i + 1) j (by omega) (by omega) hkey
        (fun m hm hmj => hfirst m (by omega) hmj)

/-- The loop returns `-1` when the scanned window lies inside the array and
does not hold the key. -/
theorem getIndex_loop_absent (array : List Int) (key : Int) :
    ∀ (remaining i : Nat), i + remaining ≤ array.length →
      (∀ m, i ≤ m → m < i + remaining → array[m]? ≠ some key) →
      STM_GetIndex.loop array key remaining i = some (-1) := by
  intro remaining
  induction remaining with
  | zero => intro i _ _; rfl
  | succ k ih =>
    intro i hlen habs
    unfold STM_GetIndex.loop
    have hilen : i < array.length := by omega
    have hne := habs i (Nat.le_refl i) (by omega)
    rw [List.getElem?_eq_getElem hilen] at hne ⊢
    have hx : array[i] ≠ key := fun h => hne (by rw [h])
    simp only [hx, if_false]
    exact ih (i + 1) (by omega) (fun m hm hmk => habs m (by omega) (by omega))

/-- Whatever the loop returns is `-1`, with the key absent from the window, or
the first index of the window holding the key. -/
theorem getIndex_loop_result (array : List Int) (key : Int) :
    ∀ (remaining i : Nat) (r : Int),
      STM_GetIndex.loop array key remaining i = some r →
      (r = -1 ∧ ∀ m, i ≤ m → m < i + remaining → array[m]? ≠ some key) ∨
      (∃ j, i ≤ j ∧ j < i + remaining ∧ r = wrap16 j ∧ array[j]? = some key ∧
        ∀ m, i ≤ m → m < j → array[m]? ≠ some key) := by
  intro remaining
  induction remaining with
  | zero =>
    intro i r h
    left
    unfold STM_GetIndex.loop at h
    simp only [Option.some.injEq] at h
    exact ⟨h.symm, fun m h1 h2 => by omega⟩
  | succ k ih =>
    intro i r h
    unfold STM_GetIndex.loop at h
    cases hx : array[i]? with
    | none => rw [hx] at h; simp at h
    | some x =>
      rw [hx] at h
      simp only at h
      by_cases hk : x = key
      · rw [if_pos hk] at h
        simp only [Option.some.injEq] at h
        right
        exact ⟨i, Nat.le_refl i, by omega, h.symm, by rw [hx, hk],
          fun m h1 h2 => by omega⟩
      · rw [if_neg hk] at h
        have hi : array[i]? ≠ some key := by
          rw [hx]; intro hc; exact hk (Option.some.inj hc)
        rcases ih (i + 1) r h with ⟨hr, habs⟩ | ⟨j, hij, hj, hr, hkey, hfirst⟩
        · left
          refine ⟨hr, fun m h1 h2 => ?_⟩
          by_cases hm : m = i
          · rw [hm]; exact hi
          · exact habs m (by omega) (by omega)
        · right
          refine ⟨j, by omega, by omega, hr, hkey, fun m h1 h2 => ?_⟩
          by_cases hm : m = i
          · rw [hm]; exact hi
          · exact hfirst m (by omega) h2

/-- The number of loop iterations for a count that is an `int16_t` value. -/
theorem wrap16_toSizeT_toNat {num : Int} (h : IsInt16 num) :
    (wrap16 (toSizeT num)).toNat = num.toNat := by
  rw [wrap16_toSizeT, wrap16_of_isInt16 h]

/-- An identifier that occurs in the axis is resolved to its first index. -/
theorem getIndex_found {array : List Int} {num key : Int} {i : Nat}
    (hnum : IsInt16 num) (h : OccursFirstAt array num key i) :
    STM_GetIndex array (toSizeT num) key = some (i : Int) := by
  obtain ⟨hi, hkey, hfirst⟩ := h
  unfold STM_GetIndex
  rw [wrap16_toSizeT_toNat hnum]
  rw [getIndex_loop_found array key num.toNat 0 i (Nat.zero_le i) (by omega) hkey
    (fun m _ hm => hfirst m hm)]
  have : IsInt16 (i : Int) := by
    unfold IsInt16 at hnum ⊢
    omega
  rw [wrap16_of_isInt16 this]

/-- An identifier that does not occur in a readable axis is resolved to `-1`. -/
theorem getIndex_absent {array : List Int} {num key : Int}
    (hnum : IsInt16 num) (hread : Readable array num) (h : Absent array num key) :
    STM_GetIndex array (toSizeT num) key = some (-1) := by
  unfold STM_GetIndex
  rw [wrap16_toSizeT_toNat hnum]
  exact getIndex_loop_absent array key num.toNat 0 (by unfold Readable at hread; omega)
    (fun m _ hm => h m (by omega))

/-- In a readable axis every identifier either occurs, first at some index, or
is absent. -/
theorem occurs_or_absent (array : List Int) (num key : Int) :
    (∃ i, OccursFirstAt array num key i) ∨ Absent array num key := by
  by_cases h : ∃ i, i < num.toNat ∧ array[i]? = some key
  · left
    classical
    refine ⟨Nat.find h, (Nat.find_spec h).1, (Nat.find_spec h).2, fun j hj hc => ?_⟩
    exact Nat.find_min h hj ⟨by have := (Nat.find_spec h).1; omega, hc⟩
  · right
    intro j hj hc
    exact h ⟨j, hj, hc⟩

/-! ## The dispatcher -/

/-- A call of `STM_SetEvent` that does not return `STM_OK` leaves the registry
as it was and invokes no action. -/
theorem setEvent_error_frame {s : STM_STORAGE} {h e : Int} {r : SetEventResult}
    (hr : STM_SetEvent s h e = some r) (hne : r.ret ≠ STM_OK) :
    r.storage = s ∧ r.calls = [] := by
  unfold STM_SetEvent at hr
  repeat' first
    | split at hr
    | (dsimp only at hr; split at hr)
  all_goals first
    | (cases hr; exact ⟨rfl, rfl⟩)
    | (cases hr; exact absurd rfl hne)
    | cases hr

/-- The dispatch of an event on a machine whose current state and event are
resolved to indices `si` and `ei`, when the second range check passes
(`si < eventNum`) and the table holds a cell with an action at the computed
index. -/
theorem setEvent_dispatch {s : STM_STORAGE} {h e : Int} {i : Fin 8} {si ei : Nat}
    {cell : STM_CELL} {action : STM_PF_ACTION}
    (hslot : slotOf h = some i)
    (hsn : IsInt16 (s.stmObjects i).stateNum) (hen : IsInt16 (s.stmObjects i).eventNum)
    (hsi : OccursFirstAt (s.stmObjects i).stateList (s.stmObjects i).stateNum
      (s.stmObjects i).stateID si)
    (hei : OccursFirstAt (s.stmObjects i).eventList (s.stmObjects i).eventNum e ei)
    (hcheck : (si : Int) < (s.stmObjects i).eventNum)
    (hcell : readCell (s.stmObjects i).matrix
      (wrap16 (ei * (s.stmObjects i).stateNum + si)) = some cell)
    (hact : cell.action = some action) :
    STM_SetEvent s h e = some
      ⟨STM_OK,
       s.writeStateID i
        (if cell.nextStateID = STM_AMBIGUOUS
          then action (s.stmObjects i).stateID cell.nextStateID e
          else cell.nextStateID),
       [⟨wrap16 (ei * (s.stmObjects i).stateNum + si), (s.stmObjects i).stateID,
          cell.nextStateID, e⟩]⟩ := by
  obtain ⟨h0, h8, _⟩ := slotOf_eq_some hslot
  have hsi1 : si < (s.stmObjects i).stateNum.toNat := hsi.1
  have hei1 : ei < (s.stmObjects i).eventNum.toNat := hei.1
  unfold STM_SetEvent
  rw [if_neg (by unfold STM_MAX_NUM; omega)]
  simp only [hslot, getIndex_found hsn hsi, getIndex_found hen hei]
  rw [if_neg (by omega), if_neg (by omega)]
  simp only [hcell, hact]

/-- The dispatch on a machine whose current state is not in its state axis. -/
theorem setEvent_state_absent {s : STM_STORAGE} {h e : Int} {i : Fin 8}
    (hslot : slotOf h = some i)
    (hsn : IsInt16 (s.stmObjects i).stateNum)
    (hread : Readable (s.stmObjects i).stateList (s.stmObjects i).stateNum)
    (habs : Absent (s.stmObjects i).stateList (s.stmObjects i).stateNum
      (s.stmObjects i).stateID) :
    STM_SetEvent s h e = some ⟨STM_RANGE_ERROR, s, []⟩ := by
  obtain ⟨h0, h8, _⟩ := slotOf_eq_some hslot
  unfold STM_SetEvent
  rw [if_neg (by unfold STM_MAX_NUM; omega)]
  simp only [hslot, getIndex_absent hsn hread habs]
  rw [if_pos (Or.inl (by omega))]

/-- The dispatch of an event that is not in the event axis. -/
theorem setEvent_event_absent {s : STM_STORAGE} {h e : Int} {i : Fin 8}
    (hslot : slotOf h = some i) (hvalid : (s.stmObjects i).AxesValid)
    (habs : Absent (s.stmObjects i).eventList (s.stmObjects i).eventNum e) :
    STM_SetEvent s h e = some ⟨STM_RANGE_ERROR, s, []⟩ := by
  obtain ⟨hsn, hen, hsread, heread⟩ := hvalid
  rcases occurs_or_absent (s.stmObjects i).stateList (s.stmObjects i).stateNum
    (s.stmObjects i).stateID with ⟨si, hsi⟩ | hsabs
  · obtain ⟨h0, h8, _⟩ := slotOf_eq_some hslot
    have hsi1 : si < (s.stmObjects i).stateNum.toNat := hsi.1
    unfold STM_SetEvent
    rw [if_neg (by unfold STM_MAX_NUM; omega)]
    simp only [hslot, getIndex_found hsn hsi, getIndex_absent hen heread habs]
    rw [if_neg (by omega), if_pos (Or.inl (by omega))]
  · exact setEvent_state_absent hslot hsn hsread hsabs

/-! ## The registry along call sequences -/

theorem writeStateID_stateNum (s : STM_STORAGE) (i j : Fin 8) (v : Int) :
    ((s.writeStateID i v).stmObjects j).stateNum = (s.stmObjects j).stateNum := by
  unfold STM_STORAGE.writeStateID
  by_cases hj : j = i
  · simp [hj]
  · simp [hj]

/-- A call of `STM_SetEvent` leaves the registry as it was or writes the
current state of the addressed slot. -/
theorem setEvent_storage_cases {s : STM_STORAGE} {h e : Int} {r : SetEventResult}
    (hr : STM_SetEvent s h e = some r) :
    r.storage = s ∨ ∃ i v, slotOf h = some i ∧ r.storage = s.writeStateID i v := by
  unfold STM_SetEvent at hr
  repeat' first
    | split at hr
    | (dsimp only at hr; split at hr)
  all_goals first
    | (cases hr; exact Or.inl rfl)
    | (cases hr; exact Or.inr ⟨_, _, by assumption, rfl⟩)
    | cases hr

/-- A successful `STM_Create`: with `0 ≤ stmNum < STM_MAX_NUM` the call returns
`stmNum`, stores the new object in that slot and increments the count. -/
theorem create_success (s : STM_STORAGE) (a : CreateArgs)
    (h0 : 0 ≤ s.stmNum) (hlt : s.stmNum < STM_MAX_NUM) :
    ∃ s1 i, STM_Create s a.matrix a.stateList a.stateNum a.eventList a.eventNum
        a.initialStateID = some (s.stmNum, s1) ∧
      slotOf s.stmNum = some i ∧
      s1.stmNum = s.stmNum + 1 ∧
      s1.stmObjects i = ⟨a.matrix, a.stateList, a.eventList, a.stateNum, a.eventNum,
        a.initialStateID⟩ ∧
      ∀ j, j ≠ i → s1.stmObjects j = s.stmObjects j := by
  unfold STM_MAX_NUM at hlt
  have hslot := slotOf_of_range h0 hlt
  refine ⟨
    { stmObjects := fun j =>
        if j = ⟨s.stmNum.toNat, (Int.toNat_lt h0).2 hlt⟩ then
          ⟨a.matrix, a.stateList, a.eventList, a.stateNum, a.eventNum, a.initialStateID⟩
        else s.stmObjects j,
      stmNum := wrap16 (s.stmNum + 1) }, _, ?_, hslot, ?_, ?_, ?_⟩
  · unfold STM_Create
    simp only [hslot]
    rw [if_neg (by unfold STM_MAX_NUM; omega)]
  · show wrap16 (s.stmNum + 1) = s.stmNum + 1
    exact wrap16_of_isInt16 (by unfold IsInt16; omega)
  · simp
  · intro j hj
    simp [hj]

/-- A failing `STM_Create`: with `STM_MAX_NUM ≤ stmNum` the call returns
`STM_NOT_ENOUGH_MEMORY` and the registry is unchanged. -/
theorem create_full (s : STM_STORAGE) (a : CreateArgs) (hfull : STM_MAX_NUM ≤ s.stmNum) :
    STM_Create s a.matrix a.stateList a.stateNum a.eventList a.eventNum
      a.initialStateID = some (STM_NOT_ENOUGH_MEMORY, s) := by
  unfold STM_Create
  simp only [if_pos hfull]

/-- The effect of one call on the count and on the configured slots: either no
handle is issued, the count stays and every `stateNum` stays, or the handle
`stmNum` is issued, the count grows by one and only slot `stmNum` is
written. -/
theorem exec_effect {s s1 : STM_STORAGE} {c : STM_CALL} {r : Option Int}
    (h0 : 0 ≤ s.stmNum) (h : c.exec s = some (r, s1)) :
    (c.issued r = none ∧ s1.stmNum = s.stmNum ∧
        ∀ j, (s1.stmObjects j).stateNum = (s.stmObjects j).stateNum) ∨
    (c.issued r = some s.stmNum ∧ s.stmNum < STM_MAX_NUM ∧ s1.stmNum = s.stmNum + 1 ∧
        ∀ j : Fin 8, ((j : Nat) : Int) ≠ s.stmNum → s1.stmObjects j = s.stmObjects j) := by
  cases c with
  | create a =>
    by_cases hfull : STM_MAX_NUM ≤ s.stmNum
    · left
      simp only [STM_CALL.exec, create_full s a hfull, Option.map_some', Option.some.injEq,
        Prod.mk.injEq] at h
      obtain ⟨hr, hs⟩ := h
      subst hr hs
      exact ⟨by simp [STM_CALL.issued, STM_NOT_ENOUGH_MEMORY], rfl, fun _ => rfl⟩
    · right
      obtain ⟨s2, i, hc, hslot, hnum, _, hother⟩ := create_success s a h0 (by omega)
      simp only [STM_CALL.exec, hc, Option.map_some', Option.some.injEq,
        Prod.mk.injEq] at h
      obtain ⟨hr, hs⟩ := h
      subst hr hs
      refine ⟨by simp [STM_CALL.issued, h0], by omega, hnum, fun j hj => hother j ?_⟩
      intro hji
      subst hji
      exact hj (slotOf_eq_some hslot).2.2.symm
  | setEvent stmID eventID =>
    left
    simp only [STM_CALL.exec, Option.map_eq_some', Prod.mk.injEq] at h
    obtain ⟨res, hres, hr, hs⟩ := h
    subst hs
    refine ⟨by cases r <;> rfl, ?_, ?_⟩
    · rcases setEvent_storage_cases hres with h1 | ⟨i, v, _, h1⟩ <;> rw [h1]
      rfl
    · intro j
      rcases setEvent_storage_cases hres with h1 | ⟨i, v, _, h1⟩ <;> rw [h1]
      exact writeStateID_stateNum s i j v
  | getState stmID =>
    left
    simp only [STM_CALL.exec, Option.map_eq_some', Prod.mk.injEq] at h
    obtain ⟨res, _, hr, hs⟩ := h
    subst hs
    exact ⟨by cases r <;> rfl, rfl, fun _ => rfl⟩
  | setState stmID stateID =>
    left
    simp only [STM_CALL.exec, STM_SetState, Option.map_eq_some', Prod.mk.injEq] at h
    obtain ⟨res, hres, hr, hs⟩ := h
    subst hs
    refine ⟨by cases r <;> rfl, ?_, ?_⟩
    · cases hslot : slotOf stmID with
      | none => rw [hslot] at hres; cases hres
      | some i => rw [hslot] at hres; cases hres; rfl
    · intro j
      cases hslot : slotOf stmID with
      | none => rw [hslot] at hres; cases hres
      | some i => rw [hslot] at hres; cases hres; exact writeStateID_stateNum s i j stateID

/-- One call preserves the registry invariant. -/
theorem exec_poolInv {s s1 : STM_STORAGE} {c : STM_CALL} {r : Option Int}
    (hinv : PoolInv s) (h : c.exec s = some (r, s1)) : PoolInv s1 := by
  obtain ⟨h0, h8, hzero⟩ := hinv
  unfold STM_MAX_NUM at h8
  rcases exec_effect h0 h with ⟨_, hnum, hcfg⟩ | ⟨_, hlt, hnum, hother⟩
  · refine ⟨by omega, by unfold STM_MAX_NUM; omega, fun j hj => ?_⟩
    rw [hcfg j]
    exact hzero j (by omega)
  · unfold STM_MAX_NUM at hlt
    refine ⟨by omega, by unfold STM_MAX_NUM; omega, fun j hj => ?_⟩
    rw [hother j (by omega)]
    exact hzero j (by omega)

/-- Unfolding of `run` on a non-empty call sequence that does not fail. -/
theorem run_cons_eq_some {s s2 : STM_STORAGE} {c : STM_CALL} {cs : List STM_CALL}
    {hs : List Int} (h : run s (c :: cs) = some (hs, s2)) :
    ∃ r s1 hs1, c.exec s = some (r, s1) ∧ run s1 cs = some (hs1, s2) ∧
      hs = (match c.issued r with
        | none => hs1
        | some k => k :: hs1) := by
  unfold run at h
  cases hex : c.exec s with
  | none => rw [hex] at h; cases h
  | some p =>
    obtain ⟨r, s1⟩ := p
    rw [hex] at h
    dsimp only at h
    cases hrun : run s1 cs with
    | none => rw [hrun] at h; cases h
    | some q =>
      obtain ⟨hs1, s3⟩ := q
      rw [hrun] at h
      dsimp only at h
      refine ⟨r, s1, hs1, rfl, ?_, ?_⟩
      · cases hi : c.issued r with
        | none =>
          rw [hi] at h
          simp only [Option.some.injEq, Prod.mk.injEq] at h
          rw [hrun, h.2]
        | some k =>
          rw [hi] at h
          simp only [Option.some.injEq, Prod.mk.injEq] at h
          rw [hrun, h.2]
      · cases hi : c.issued r with
        | none =>
          rw [hi] at h
          simp only [Option.some.injEq, Prod.mk.injEq] at h
          exact h.1.symm
        | some k =>
          rw [hi] at h
          simp only [Option.some.injEq, Prod.mk.injEq] at h
          exact h.1.symm

/-- A call sequence preserves the registry invariant. -/
theorem run_poolInv : ∀ (calls : List STM_CALL) (s s2 : STM_STORAGE) (hs : List Int),
    PoolInv s → run s calls = some (hs, s2) → PoolInv s2 := by
  intro calls
  induction calls with
  | nil =>
    intro s s2 hs hinv h
    unfold run at h
    cases h
    exact hinv
  | cons c cs ih =>
    intro s s2 hs hinv h
    obtain ⟨r, s1, hs1, hex, hrun, _⟩ := run_cons_eq_some h
    exact ih s1 s2 hs1 (exec_poolInv hinv hex) hrun

theorem poolInv_empty : PoolInv STM_STORAGE.empty :=
  ⟨by decide, by decide, fun _ _ => rfl⟩

theorem reachable_poolInv {s : STM_STORAGE} (h : Reachable s) : PoolInv s := by
  obtain ⟨calls, hs, _, hrun⟩ := h
  exact run_poolInv calls _ s hs poolInv_empty hrun

/-- The handles issued along a call sequence are the successive values of the
count: from a registry with count `n` the successful Create calls return
`n, n + 1, ...` in call order, and the count never exceeds `STM_MAX_NUM`. -/
theorem run_handles : ∀ (calls : List STM_CALL) (s s2 : STM_STORAGE) (hs : List Int),
    0 ≤ s.stmNum → s.stmNum ≤ STM_MAX_NUM → run s calls = some (hs, s2) →
    s.stmNum ≤ s2.stmNum ∧ s2.stmNum ≤ STM_MAX_NUM ∧
      hs = (List.range' s.stmNum.toNat (s2.stmNum - s.stmNum).toNat).map
        (fun n : Nat => (n : Int)) := by
  intro calls
  induction calls with
  | nil =>
    intro s s2 hs h0 h8 h
    unfold run at h
    simp only [Option.some.injEq, Prod.mk.injEq] at h
    obtain ⟨h1, h2⟩ := h
    subst h1 h2
    exact ⟨Int.le_refl _, h8, by simp⟩
  | cons c cs ih =>
    intro s s2 hs h0 h8 h
    obtain ⟨r, s1, hs1, hex, hrun, hhs⟩ := run_cons_eq_some h
    unfold STM_MAX_NUM at h8
    rcases exec_effect h0 hex with ⟨hiss, hnum, _⟩ | ⟨hiss, hlt, hnum, _⟩
    · rw [hiss] at hhs
      have := ih s1 s2 hs1 (by omega) (by unfold STM_MAX_NUM; omega) hrun
      rw [hnum] at this
      rw [hhs]
      exact this
    · rw [hiss] at hhs
      unfold STM_MAX_NUM at hlt
      obtain ⟨hle, hle8, hlist⟩ :=
        ih s1 s2 hs1 (by omega) (by unfold STM_MAX_NUM; omega) hrun
      refine ⟨by omega, hle8, ?_⟩
      have e1 : (s2.stmNum - s.stmNum).toNat = (s2.stmNum - s1.stmNum).toNat + 1 := by omega
      have e2 : s1.stmNum.toNat = s.stmNum.toNat + 1 := by omega
      rw [hhs, hlist, e1, e2, List.range'_succ, List.map_cons, Int.toNat_of_nonneg h0]

/-- A sequence of Create calls that fits into the pool: every call succeeds and
the handles are the successive values of the count. -/
theorem run_creates : ∀ (as : List CreateArgs) (s : STM_STORAGE),
    0 ≤ s.stmNum → s.stmNum + as.length ≤ STM_MAX_NUM →
    ∃ s2, run s (as.map STM_CALL.create) =
        some ((List.range' s.stmNum.toNat as.length).map (fun n : Nat => (n : Int)), s2) ∧
      s2.stmNum = s.stmNum + as.length := by
  intro as
  induction as with
  | nil =>
    intro s _ _
    exact ⟨s, rfl, by simp⟩
  | cons a as ih =>
    intro s h0 h8
    unfold STM_MAX_NUM at h8
    simp only [List.length_cons, Nat.cast_add, Nat.cast_one] at h8
    obtain ⟨s1, i, hc, _, hnum, _, _⟩ :=
      create_success s a h0 (by unfold STM_MAX_NUM; omega)
    obtain ⟨s2, hrun, hnum2⟩ := ih s1 (by omega) (by unfold STM_MAX_NUM; omega)
    refine ⟨s2, ?_, ?_⟩
    · have e2 : s1.stmNum.toNat = s.stmNum.toNat + 1 := by omega
      rw [e2] at hrun
      simp only [List.map_cons, run, STM_CALL.exec, hc, Option.map_some', hrun,
        STM_CALL.issued, if_pos h0, List.length_cons, List.range'_succ,
        Int.toNat_of_nonneg h0]
    · simp only [List.length_cons, Nat.cast_add, Nat.cast_one]
      omega

/-- What the resolver returns on an axis whose count is an `int16_t` value:
`-1` with the key absent, or the first index holding the key. -/
theorem getIndex_result {array : List Int} {num key r : Int} (hnum : IsInt16 num)
    (h : STM_GetIndex array (toSizeT num) key = some r) :
    (r = -1 ∧ Absent array num key) ∨
      ∃ j : Nat, OccursFirstAt array num key j ∧ r = (j : Int) := by
  unfold STM_GetIndex at h
  rw [wrap16_toSizeT_toNat hnum] at h
  rcases getIndex_loop_result array key num.toNat 0 r h with
    ⟨hr, habs⟩ | ⟨j, _, hj, hr, hkey, hfirst⟩
  · left
    exact ⟨hr, fun j hj => habs j (Nat.zero_le j) (by omega)⟩
  · right
    refine ⟨j, ⟨by omega, hkey, fun m hm => hfirst m (Nat.zero_le m) hm⟩, ?_⟩
    have hj16 : IsInt16 (j : Int) := by
      unfold IsInt16 at hnum ⊢
      omega
    rw [hr, wrap16_of_isInt16 hj16]

/-- Only a Create call that returned a non-negative value issues a handle. -/
theorem issued_eq_some {c : STM_CALL} {r : Option Int} {k : Int}
    (h : c.issued r = some k) : (∃ a, c = STM_CALL.create a) ∧ r = some k ∧ 0 ≤ k := by
  cases c with
  | create a =>
    cases r with
    | none => simp [STM_CALL.issued] at h
    | some v =>
      simp only [STM_CALL.issued] at h
      split at h
      · rename_i hv
        simp only [Option.some.injEq] at h
        subst h
        exact ⟨⟨a, rfl⟩, rfl, hv⟩
      · cases h
  | setEvent _ _ => simp [STM_CALL.issued] at h
  | getState _ => simp [STM_CALL.issued] at h
  | setState _ _ => simp [STM_CALL.issued] at h

/-! ## The table index of the dispatcher -/

/-- Once `STM_SetEvent` has computed its table index, the call reads the cell
at that index and goes on with it. -/
theorem setEvent_of_index {s : STM_STORAGE} {h e idx : Int} {i : Fin 8}
    (hslot : slotOf h = some i) (hidx : STM_SetEvent.index s h e = some idx) :
    STM_SetEvent s h e =
      (readCell (s.stmObjects i).matrix idx).map (STM_SetEvent.onCell s i e idx) := by
  unfold STM_SetEvent.index at hidx
  unfold STM_SetEvent
  by_cases hr : h < 0 ∨ STM_MAX_NUM ≤ h
  · rw [if_pos hr] at hidx
    cases hidx
  · rw [if_neg hr] at hidx ⊢
    simp only [hslot] at hidx ⊢
    cases hsi : STM_GetIndex (s.stmObjects i).stateList (toSizeT (s.stmObjects i).stateNum)
        (s.stmObjects i).stateID with
    | none => rw [hsi] at hidx; cases hidx
    | some stateIndex =>
      simp only [hsi] at hidx ⊢
      by_cases hc1 : stateIndex < 0 ∨ (s.stmObjects i).stateNum ≤ stateIndex
      · rw [if_pos hc1] at hidx
        cases hidx
      · rw [if_neg hc1] at hidx ⊢
        cases hei : STM_GetIndex (s.stmObjects i).eventList
            (toSizeT (s.stmObjects i).eventNum) e with
        | none => rw [hei] at hidx; cases hidx
        | some eventIndex =>
          simp only [hei] at hidx ⊢
          by_cases hc2 : eventIndex < 0 ∨ (s.stmObjects i).eventNum ≤ stateIndex
          · rw [if_pos hc2] at hidx
            cases hidx
          · rw [if_neg hc2] at hidx ⊢
            simp only [Option.some.injEq] at hidx
            rw [hidx]
            cases hcell : readCell (s.stmObjects i).matrix idx with
            | none => rfl
            | some cell =>
              simp only [Option.map_some', STM_SetEvent.onCell]
              cases hact : cell.action with
              | none => rfl
              | some action => rfl

/-- A call of `STM_SetEvent` that does not get as far as the table index has
no defined result or returns `STM_RANGE_ERROR` without any effect. -/
theorem setEvent_of_index_none {s : STM_STORAGE} {h e : Int}
    (hidx : STM_SetEvent.index s h e = none) :
    STM_SetEvent s h e = none ∨ STM_SetEvent s h e = some ⟨STM_RANGE_ERROR, s, []⟩ := by
  unfold STM_SetEvent.index at hidx
  unfold STM_SetEvent
  by_cases hr : h < 0 ∨ STM_MAX_NUM ≤ h
  · rw [if_pos hr]
    exact Or.inr rfl
  · rw [if_neg hr] at hidx ⊢
    cases hslot : slotOf h with
    | none => exact Or.inl rfl
    | some i =>
      simp only [hslot] at hidx ⊢
      cases hsi : STM_GetIndex (s.stmObjects i).stateList
          (toSizeT (s.stmObjects i).stateNum) (s.stmObjects i).stateID with
      | none => exact Or.inl rfl
      | some stateIndex =>
        simp only [hsi] at hidx ⊢
        by_cases hc1 : stateIndex < 0 ∨ (s.stmObjects i).stateNum ≤ stateIndex
        · rw [if_pos hc1]
          exact Or.inr rfl
        · rw [if_neg hc1] at hidx ⊢
          cases hei : STM_GetIndex (s.stmObjects i).eventList
              (toSizeT (s.stmObjects i).eventNum) e with
          | none => exact Or.inl rfl
          | some eventIndex =>
            simp only [hei] at hidx ⊢
            by_cases hc2 : eventIndex < 0 ∨ (s.stmObjects i).eventNum ≤ stateIndex
            · rw [if_pos hc2]
              exact Or.inr rfl
            · rw [if_neg hc2] at hidx
              cases hidx

/-- The table index is computed exactly when the current state and the event
are found in their axes and the second range check passes; it is then the
16-bit value of `ei * stateNum + si`. -/
theorem index_eq_some_iff {s : STM_STORAGE} {h e idx : Int} {i : Fin 8}
    (hslot : slotOf h = some i)
    (hsn : IsInt16 (s.stmObjects i).stateNum) (hen : IsInt16 (s.stmObjects i).eventNum) :
    STM_SetEvent.index s h e = some idx ↔
      ∃ si ei : Nat,
        OccursFirstAt (s.stmObjects i).stateList (s.stmObjects i).stateNum
          (s.stmObjects i).stateID si ∧
        OccursFirstAt (s.stmObjects i).eventList (s.stmObjects i).eventNum e ei ∧
        (si : Int) < (s.stmObjects i).eventNum ∧
        idx = wrap16 (ei * (s.stmObjects i).stateNum + si) := by
  obtain ⟨h0, h8, _⟩ := slotOf_eq_some hslot
  have hr : ¬ (h < 0 ∨ STM_MAX_NUM ≤ h) := by unfold STM_MAX_NUM; omega
  constructor
  · intro hidx
    unfold STM_SetEvent.index at hidx
    rw [if_neg hr] at hidx
    simp only [hslot] at hidx
    cases hsi : STM_GetIndex (s.stmObjects i).stateList (toSizeT (s.stmObjects i).stateNum)
        (s.stmObjects i).stateID with
    | none => rw [hsi] at hidx; cases hidx
    | some stateIndex =>
      simp only [hsi] at hidx
      by_cases hc1 : stateIndex < 0 ∨ (s.stmObjects i).stateNum ≤ stateIndex
      · rw [if_pos hc1] at hidx
        cases hidx
      · rw [if_neg hc1] at hidx
        cases hei : STM_GetIndex (s.stmObjects i).eventList
            (toSizeT (s.stmObjects i).eventNum) e with
        | none => rw [hei] at hidx; cases hidx
        | some eventIndex =>
          simp only [hei] at hidx
          by_cases hc2 : eventIndex < 0 ∨ (s.stmObjects i).eventNum ≤ stateIndex
          · rw [if_pos hc2] at hidx
            cases hidx
          · rw [if_neg hc2] at hidx
            simp only [Option.some.injEq] at hidx
            rcases getIndex_result hsn hsi with ⟨hm1, _⟩ | ⟨si, hsi1, hsi2⟩
            · omega
            · rcases getIndex_result hen hei with ⟨hm1, _⟩ | ⟨ei, hei1, hei2⟩
              · omega
              · subst hsi2 hei2
                exact ⟨si, ei, hsi1, hei1, by omega, hidx.symm⟩
  · rintro ⟨si, ei, hsi, hei, hcheck, hidx⟩
    have hsi1 : si < (s.stmObjects i).stateNum.toNat := hsi.1
    have hei1 : ei < (s.stmObjects i).eventNum.toNat := hei.1
    unfold STM_SetEvent.index
    rw [if_neg hr]
    simp only [hslot, getIndex_found hsn hsi, getIndex_found hen hei]
    rw [if_neg (by omega), if_neg (by omega), hidx]

/-- A handle for which the table index is computed addresses a slot of the
pool. -/
theorem index_some_slot {s : STM_STORAGE} {h e idx : Int}
    (hidx : STM_SetEvent.index s h e = some idx) : ∃ i, slotOf h = some i := by
  unfold STM_SetEvent.index at hidx
  split at hidx
  · cases hidx
  · cases hslot : slotOf h with
    | none => rw [hslot] at hidx; cases hidx
    | some i => exact ⟨i, rfl⟩

/-- A count between 0 and 32767 is passed unchanged as a `size_t`. -/
theorem toSizeT_of_range {n : Int} (h0 : 0 ≤ n) (hn : n ≤ 32767) : toSizeT n = n := by
  unfold toSizeT
  omega

theorem bigAxis_getElem? {j : Nat} (hj : j < 182) : bigAxis[j]? = some (j : Int) := by
  unfold bigAxis
  rw [List.getElem?_map, List.getElem?_range hj]
  rfl

theorem bigAxis_occurs : OccursFirstAt bigAxis 182 181 181 := by
  refine ⟨by decide, bigAxis_getElem? (by decide), fun j hj => ?_⟩
  rw [bigAxis_getElem? (by omega)]
  intro hc
  have := Option.some.inj hc
  omega

theorem bigAxis_readable : Readable bigAxis 182 := by
  unfold Readable bigAxis
  rw [List.length_map, List.length_range]
  decide

/-- A run followed by one more call is a run of the longer sequence. -/
theorem run_snoc : ∀ {calls : List STM_CALL} {s s1 s2 : STM_STORAGE} {hs : List Int}
    {c : STM_CALL} {r : Option Int},
    run s calls = some (hs, s1) → c.exec s1 = some (r, s2) →
    ∃ hs2, run s (calls ++ [c]) = some (hs2, s2) := by
  intro calls
  induction calls with
  | nil =>
    intro s s1 s2 hs c r hrun hex
    unfold run at hrun
    simp only [Option.some.injEq, Prod.mk.injEq] at hrun
    obtain ⟨_, hs1⟩ := hrun
    subst hs1
    cases hi : c.issued r with
    | none => exact ⟨[], by simp [run, hex, hi]⟩
    | some k => exact ⟨[k], by simp [run, hex, hi]⟩
  | cons d ds ih =>
    intro s s1 s2 hs c r hrun hex
    obtain ⟨rd, sd, hsd, hexd, hrund, _⟩ := run_cons_eq_some hrun
    obtain ⟨hs2, hrun2⟩ := ih hrund hex
    cases hi : d.issued rd with
    | none => exact ⟨hs2, by simp [run, hexd, hrun2, hi]⟩
    | some k => exact ⟨k :: hs2, by simp [run, hexd, hrun2, hi]⟩

theorem testRegistry_reachable : Reachable testRegistry :=
  ⟨[.create testArgs], [0],
    fun c hc => by simp only [List.mem_singleton] at hc; subst hc; trivial, rfl⟩

/-- A cell index inside the table is read without leaving the array. -/
theorem readCell_in_bounds {matrix : List STM_CELL} {idx : Int}
    (h0 : 0 ≤ idx) (hlt : idx < (matrix.length : Int)) :
    ∃ cell, readCell matrix idx = some cell := by
  have hnat : idx.toNat < matrix.length := by omega
  exact ⟨matrix[idx.toNat], by unfold readCell; rw [if_pos h0, List.getElem?_eq_getElem hnat]⟩

/-! ## State ids along call sequences -/

theorem readCell_mem {matrix : List STM_CELL} {idx : Int} {cell : STM_CELL}
    (h : readCell matrix idx = some cell) : cell ∈ matrix := by
  unfold readCell at h
  split at h
  · exact List.getElem?_mem h
  · cases h

theorem writeStateID_statesNonneg {s : STM_STORAGE} {i : Fin 8} {v : Int}
    (hs : StatesNonneg s) (hv : 0 ≤ v) : StatesNonneg (s.writeStateID i v) := by
  intro j
  unfold STM_STORAGE.writeStateID
  by_cases hj : j = i
  · subst hj
    simp only [if_true]
    exact ⟨hv, (hs j).2⟩
  · simp only [if_neg hj]
    exact hs j

/-- The state a cell resolves to is non-negative when the cell produces
non-negative state ids only. -/
theorem onCell_statesNonneg {s : STM_STORAGE} {i : Fin 8} {e idx : Int} {cell : STM_CELL}
    (hs : StatesNonneg s) (hc : CellNonneg cell) :
    StatesNonneg (STM_SetEvent.onCell s i e idx cell).storage := by
  unfold STM_SetEvent.onCell
  cases hact : cell.action with
  | none => exact hs
  | some action =>
    apply writeStateID_statesNonneg hs
    by_cases hamb : cell.nextStateID = STM_AMBIGUOUS
    · rw [if_pos hamb]
      exact hc.2 hamb action hact _ _ _
    · rw [if_neg hamb]
      exact hc.1 hamb

theorem exec_statesNonneg {s s1 : STM_STORAGE} {c : STM_CALL} {r : Option Int}
    (hs : StatesNonneg s) (hc : c.NonnegStates) (h : c.exec s = some (r, s1)) :
    StatesNonneg s1 := by
  cases c with
  | create a =>
    simp only [STM_CALL.exec, STM_Create, Option.map_eq_some', Prod.mk.injEq] at h
    obtain ⟨res, hres, _, hs1⟩ := h
    subst hs1
    split at hres
    · cases hres
      exact hs
    · cases hslot : slotOf s.stmNum with
      | none => rw [hslot] at hres; cases hres
      | some i =>
        rw [hslot] at hres
        cases hres
        intro j
        by_cases hj : j = i
        · simp only [hj, if_true]
          exact hc
        · simp only [if_neg hj]
          exact hs j
  | setEvent stmID eventID =>
    simp only [STM_CALL.exec, Option.map_eq_some', Prod.mk.injEq] at h
    obtain ⟨res, hres, _, hs1⟩ := h
    subst hs1
    cases hidx : STM_SetEvent.index s stmID eventID with
    | none =>
      rcases setEvent_of_index_none hidx with hnone | hrange
      · rw [hnone] at hres
        cases hres
      · rw [hrange] at hres
        cases hres
        exact hs
    | some idx =>
      obtain ⟨i, hslot⟩ := index_some_slot hidx
      rw [setEvent_of_index hslot hidx] at hres
      cases hcell : readCell (s.stmObjects i).matrix idx with
      | none => rw [hcell] at hres; cases hres
      | some cell =>
        rw [hcell] at hres
        simp only [Option.map_some', Option.some.injEq] at hres
        subst hres
        exact onCell_statesNonneg hs ((hs i).2 cell (readCell_mem hcell))
  | getState stmID =>
    simp only [STM_CALL.exec, Option.map_eq_some', Prod.mk.injEq] at h
    obtain ⟨_, _, _, hs1⟩ := h
    subst hs1
    exact hs
  | setState stmID stateID =>
    simp only [STM_CALL.exec, STM_SetState, Option.map_eq_some', Prod.mk.injEq] at h
    obtain ⟨res, hres, _, hs1⟩ := h
    subst hs1
    cases hslot : slotOf stmID with
    | none => rw [hslot] at hres; cases hres
    | some i =>
      rw [hslot] at hres
      cases hres
      exact writeStateID_statesNonneg hs hc

theorem run_statesNonneg : ∀ (calls : List STM_CALL) (s s2 : STM_STORAGE) (hs : List Int),
    StatesNonneg s → (∀ c ∈ calls, c.NonnegStates) → run s calls = some (hs, s2) →
    StatesNonneg s2 := by
  intro calls
  induction calls with
  | nil =>
    intro s s2 hs hinv _ h
    unfold run at h
    cases h
    exact hinv
  | cons c cs ih =>
    intro s s2 hs hinv hall h
    obtain ⟨r, s1, hs1, hex, hrun, _⟩ := run_cons_eq_some h
    exact ih s1 s2 hs1
      (exec_statesNonneg hinv (hall c (List.mem_cons_self c cs)) hex)
      (fun d hd => hall d (List.mem_cons_of_mem c hd)) hrun

theorem statesNonneg_empty : StatesNonneg STM_STORAGE.empty :=
  fun _ => ⟨Int.le_refl 0, fun c hc => by cases hc⟩

/-- Every cell of the table of StmTest.cpp names a non-negative next state. -/
theorem testTable_nonneg : ∀ c ∈ testTable, CellNonneg c := by
  intro c hc
  have hstatic : c.nextStateID ≠ STM_AMBIGUOUS ∧ 0 ≤ c.nextStateID := by
    simp only [testTable, List.mem_cons, List.mem_singleton, List.not_mem_nil,
      or_false] at hc
    rcases hc with h | h | h | h | h | h | h | h | h | h | h | h | h | h | h | h |
      h | h | h | h | h | h | h | h | h | h | h | h | h | h | h | h |
      h | h | h | h | h | h | h | h | h | h | h | h | h | h | h | h <;>
      (rw [h]; exact ⟨by decide, by decide⟩)
  exact ⟨fun _ => hstatic.2, fun hamb => absurd hamb hstatic.1⟩

theorem testCalls_nonneg : ∀ c ∈ testCalls, c.NonnegStates := by
  intro c hc
  simp only [testCalls, List.mem_cons, List.mem_singleton, List.not_mem_nil,
    or_false] at hc
  rcases hc with h | h | h | h | h | h | h | h | h | h <;> rw [h]
  · exact ⟨by decide, testTable_nonneg⟩
  · trivial
  · trivial
  · trivial
  · trivial
  · trivial
  · exact ⟨by decide, testTable_nonneg⟩
  · trivial
  · exact Int.le_refl 0
  · trivial

/-! ## Frame of the operations -/

theorem frameExceptState_refl (s : STM_STORAGE) (i : Fin 8) : FrameExceptState s s i :=
  ⟨rfl, fun _ => ⟨rfl, rfl, rfl, rfl, rfl, fun _ => rfl⟩⟩

theorem frameExceptState_writeStateID (s : STM_STORAGE) (i : Fin 8) (v : Int) :
    FrameExceptState s (s.writeStateID i v) i := by
  refine ⟨rfl, fun j => ?_⟩
  unfold STM_STORAGE.writeStateID
  by_cases hj : j = i
  · subst hj
    simp
  · simp [hj]

theorem slotOf_eq_none {h : Int} (hs : slotOf h = none) : h < 0 ∨ STM_MAX_NUM ≤ h := by
  unfold slotOf at hs
  split at hs
  · cases hs
  · unfold STM_MAX_NUM
    omega

/-! ## The results of the dispatcher -/

theorem onCell_ret_of_action {s : STM_STORAGE} {i : Fin 8} {e idx : Int} {cell : STM_CELL}
    (h : cell.action ≠ none) : (STM_SetEvent.onCell s i e idx cell).ret = STM_OK := by
  unfold STM_SetEvent.onCell
  cases hact : cell.action with
  | none => exact absurd hact h
  | some action => rfl

theorem onCell_ret_of_no_action {s : STM_STORAGE} {i : Fin 8} {e idx : Int}
    {cell : STM_CELL} (h : cell.action = none) :
    (STM_SetEvent.onCell s i e idx cell).ret = STM_NO_ACTION := by
  unfold STM_SetEvent.onCell
  rw [h]

/-- A dispatch that addresses a cell goes on with that cell. -/
theorem addresses_setEvent {s : STM_STORAGE} {h e : Int} {cell : STM_CELL}
    (hint : ∀ i, slotOf h = some i →
      IsInt16 (s.stmObjects i).stateNum ∧ IsInt16 (s.stmObjects i).eventNum)
    (ha : Addresses s h e cell) :
    ∃ i idx, slotOf h = some i ∧
      STM_SetEvent s h e = some (STM_SetEvent.onCell s i e idx cell) := by
  obtain ⟨i, si, ei, hslot, hsi, hei, hcheck, hcell⟩ := ha
  obtain ⟨hsn, hen⟩ := hint i hslot
  have hidx := (index_eq_some_iff hslot hsn hen).2 ⟨si, ei, hsi, hei, hcheck, rfl⟩
  refine ⟨i, wrap16 ((ei : Int) * (s.stmObjects i).stateNum + si), hslot, ?_⟩
  rw [setEvent_of_index hslot hidx, hcell]
  rfl

/-- A call of `STM_SetEvent` that returns either addresses no cell and returns
`STM_RANGE_ERROR` without effect, or addresses a cell and goes on with it. -/
theorem setEvent_cases {s : STM_STORAGE} {h e : Int} {r : SetEventResult}
    (hint : ∀ i, slotOf h = some i →
      IsInt16 (s.stmObjects i).stateNum ∧ IsInt16 (s.stmObjects i).eventNum)
    (hr : STM_SetEvent s h e = some r) :
    r = ⟨STM_RANGE_ERROR, s, []⟩ ∨
      ∃ cell i idx, Addresses s h e cell ∧ slotOf h = some i ∧
        r = STM_SetEvent.onCell s i e idx cell := by
  cases hidx : STM_SetEvent.index s h e with
  | none =>
    left
    rcases setEvent_of_index_none hidx with hnone | hrange
    · rw [hnone] at hr
      cases hr
    · rw [hrange] at hr
      exact (Option.some.inj hr).symm
  | some idx =>
    right
    obtain ⟨i, hslot⟩ := index_some_slot hidx
    obtain ⟨hsn, hen⟩ := hint i hslot
    obtain ⟨si, ei, hsi, hei, hcheck, hval⟩ := (index_eq_some_iff hslot hsn hen).1 hidx
    rw [setEvent_of_index hslot hidx] at hr
    cases hcell : readCell (s.stmObjects i).matrix idx with
    | none => rw [hcell] at hr; cases hr
    | some cell =>
      rw [hcell] at hr
      simp only [Option.map_some', Option.some.injEq] at hr
      exact ⟨cell, i, idx, ⟨i, si, ei, hslot, hsi, hei, hcheck, by rw [← hval]; exact hcell⟩,
        hslot, hr.symm⟩

/-- On a machine with well formed axes and a table that covers them every call
of `STM_SetEvent` returns. -/
theorem setEvent_returns {s : STM_STORAGE} {h e : Int}
    (hwf : ∀ i, slotOf h = some i →
      (s.stmObjects i).AxesValid ∧ (s.stmObjects i).TableValid) :
    ∃ r, STM_SetEvent s h e = some r := by
  cases hslot : slotOf h with
  | none =>
    refine ⟨⟨STM_RANGE_ERROR, s, []⟩, ?_⟩
    unfold STM_SetEvent
    rw [if_pos (slotOf_eq_none hslot)]
  | some i =>
    obtain ⟨hvalid, hprod, hlen⟩ := hwf i hslot
    obtain ⟨hsn, hen, hsread, heread⟩ := hvalid
    rcases occurs_or_absent (s.stmObjects i).stateList (s.stmObjects i).stateNum
      (s.stmObjects i).stateID with ⟨si, hsi⟩ | hsabs
    · rcases occurs_or_absent (s.stmObjects i).eventList (s.stmObjects i).eventNum e with
        ⟨ei, hei⟩ | heabs
      · have hsi1 : si < (s.stmObjects i).stateNum.toNat := hsi.1
        have hei1 : ei < (s.stmObjects i).eventNum.toNat := hei.1
        by_cases hcheck : (si : Int) < (s.stmObjects i).eventNum
        · have hlow : 0 ≤ (ei : Int) * (s.stmObjects i).stateNum :=
            Int.mul_nonneg (Int.ofNat_nonneg ei) (by omega)
          have hsi2 : (si : Int) < (s.stmObjects i).stateNum := by omega
          have hei2 : (ei : Int) < (s.stmObjects i).eventNum := by omega
          have hup : (ei : Int) * (s.stmObjects i).stateNum + si
              < (s.stmObjects i).eventNum * (s.stmObjects i).stateNum := by nlinarith
          have h16 : IsInt16 ((ei : Int) * (s.stmObjects i).stateNum + si) := by
            unfold IsInt16
            omega
          have hidx := (index_eq_some_iff hslot hsn hen).2
            ⟨si, ei, hsi, hei, hcheck, (wrap16_of_isInt16 h16).symm⟩
          obtain ⟨cell, hcell⟩ := @readCell_in_bounds (s.stmObjects i).matrix
            ((ei : Int) * (s.stmObjects i).stateNum + si) (by omega) (by omega)
          refine ⟨STM_SetEvent.onCell s i e
            ((ei : Int) * (s.stmObjects i).stateNum + si) cell, ?_⟩
          rw [setEvent_of_index hslot hidx, hcell]
          rfl
        · obtain ⟨h0, h8, _⟩ := slotOf_eq_some hslot
          refine ⟨⟨STM_RANGE_ERROR, s, []⟩, ?_⟩
          unfold STM_SetEvent
          rw [if_neg (by unfold STM_MAX_NUM; omega)]
          simp only [hslot, getIndex_found hsn hsi, getIndex_found hen hei]
          rw [if_neg (by omega), if_pos (Or.inr (by omega))]
      · exact ⟨_, setEvent_event_absent hslot ⟨hsn, hen, hsread, heread⟩ heabs⟩
    · exact ⟨_, setEvent_state_absent hslot hsn hsread hsabs⟩

/-- The table index without truncation: whenever the integer
`ei * stateNum + si` is at most 32767, with `si` and `ei` the first positions
of the current state and of the event in their axes and the second range check
passed, the index `STM_SetEvent` computes is exactly `ei * stateNum + si` and
the call reads and dispatches the cell at that position of the table. -/
theorem table_index_exact (s : STM_STORAGE) (h e : Int) (i : Fin 8) (si ei : Nat)
    (hslot : slotOf h = some i)
    (hsn : IsInt16 (s.stmObjects i).stateNum) (hen : IsInt16 (s.stmObjects i).eventNum)
    (hsi : OccursFirstAt (s.stmObjects i).stateList (s.stmObjects i).stateNum
      (s.stmObjects i).stateID si)
    (hei : OccursFirstAt (s.stmObjects i).eventList (s.stmObjects i).eventNum e ei)
    (hcheck : (si : Int) < (s.stmObjects i).eventNum)
    (hfit : (ei : Int) * (s.stmObjects i).stateNum + si ≤ 32767) :
    STM_SetEvent.index s h e = some ((ei : Int) * (s.stmObjects i).stateNum + si) ∧
      STM_SetEvent s h e =
        (readCell (s.stmObjects i).matrix ((ei : Int) * (s.stmObjects i).stateNum + si)).map
          (STM_SetEvent.onCell s i e ((ei : Int) * (s.stmObjects i).stateNum + si)) := by
  have hsi1 : si < (s.stmObjects i).stateNum.toNat := hsi.1
  have hnn : 0 ≤ (ei : Int) * (s.stmObjects i).stateNum :=
    Int.mul_nonneg (Int.ofNat_nonneg ei) (by omega)
  have h16 : IsInt16 ((ei : Int) * (s.stmObjects i).stateNum + si) := by
    unfold IsInt16
    omega
  have hidx : STM_SetEvent.index s h e
      = some ((ei : Int) * (s.stmObjects i).stateNum + si) :=
    (index_eq_some_iff hslot hsn hen).2
      ⟨si, ei, hsi, hei, hcheck, (wrap16_of_isInt16 h16).symm⟩
  exact ⟨hidx, setEvent_of_index hslot hidx⟩

/-! ## Claims -/

/-- C1 (static transition, P2) fails on a table with more states than events.
The machine created over `wideTable` is in state 13 (state index 3), event 20
is in the event axis (index 0) and the cell at `0 * 4 + 3` has an action and
the static next state 10; the claim says `STM_SetEvent` returns `STM_OK` and
the state becomes 10, but the second range check compares `eventNum` (3) with
the state index (3): the call returns `STM_RANGE_ERROR` and the state stays
13. -/
theorem static_transition_wide_table_range_error :
    STM_Create STM_STORAGE.empty wideTable [10, 11, 12, 13] 4 [20, 21, 22] 3 13
        = some (0, wideRegistry) ∧
      Created wideRegistry 0 0 ∧
      OccursFirstAt wideObject.stateList wideObject.stateNum wideObject.stateID 3 ∧
      OccursFirstAt wideObject.eventList wideObject.eventNum 20 0 ∧
      (readCell wideTable (0 * 4 + 3)).map (fun c => (c.action.isSome, c.nextStateID))
        = some (true, 10) ∧
      (10 : Int) ≠ STM_AMBIGUOUS ∧
      STM_SetEvent wideRegistry 0 20 = some ⟨STM_RANGE_ERROR, wideRegistry, []⟩ ∧
      STM_GetState wideRegistry 0 = some 13 :=
  ⟨rfl, by decide, by decide, by decide, by decide, by decide, rfl, rfl⟩

/-- C2 (dynamic transition, P3) fails on a table with more states than events.
The machine over `wideTable` is in state 13 (state index 3), event 21 is in the
event axis (index 1) and the cell at `1 * 4 + 3` has the action `pick11`, which
returns 11, and the next state `STM_AMBIGUOUS`; the claim says `STM_SetEvent`
returns `STM_OK` and the state becomes 11, but the call returns
`STM_RANGE_ERROR`, invokes no action and the state stays 13. -/
theorem dynamic_transition_wide_table_range_error :
    Created wideRegistry 0 0 ∧
      OccursFirstAt wideObject.stateList wideObject.stateNum wideObject.stateID 3 ∧
      OccursFirstAt wideObject.eventList wideObject.eventNum 21 1 ∧
      (readCell wideTable (1 * 4 + 3)).map
          (fun c => (c.action.map (fun a => a 13 c.nextStateID 21), c.nextStateID))
        = some (some 11, STM_AMBIGUOUS) ∧
      STM_SetEvent wideRegistry 0 21 = some ⟨STM_RANGE_ERROR, wideRegistry, []⟩ ∧
      STM_GetState wideRegistry 0 = some 13 :=
  ⟨by decide, by decide, by decide, by decide, rfl, rfl⟩

/-- C3 (atomicity of dispatch): whenever `STM_SetEvent(h, e)` returns a value
other than `STM_OK`, for any registry and any handle, the registry after the
call is the registry before it (the count and every field of every
instance). -/
theorem setEvent_failure_registry_unchanged (s : STM_STORAGE) (h e : Int)
    (r : SetEventResult) (hr : STM_SetEvent s h e = some r) (hfail : r.ret ≠ STM_OK) :
    r.storage = s :=
  (setEvent_error_frame hr hfail).1

/-- Witness of C3: the unknown event `0x1000` of StmTest.cpp. -/
theorem setEvent_failure_registry_unchanged_witness :
    STM_SetEvent testRegistry 0 4096 = some ⟨STM_RANGE_ERROR, testRegistry, []⟩ ∧
      STM_RANGE_ERROR ≠ STM_OK ∧
      (⟨STM_RANGE_ERROR, testRegistry, []⟩ : SetEventResult).storage = testRegistry :=
  ⟨rfl, by decide,
    setEvent_failure_registry_unchanged testRegistry 0 4096
      ⟨STM_RANGE_ERROR, testRegistry, []⟩ rfl (by decide)⟩

/-- C4 (unknown event, P4): for a created handle `h` of a machine with well
formed axes and an event `e` that is not in its event axis, `STM_SetEvent(h, e)`
returns `STM_RANGE_ERROR`, the current state (the whole registry) is the same
afterwards, and a following `STM_GetState(h)` returns the old state. -/
theorem setEvent_unknown_event (s : STM_STORAGE) (h e : Int) (i : Fin 8)
    (hcreated : Created s h i) (hvalid : (s.stmObjects i).AxesValid)
    (habs : Absent (s.stmObjects i).eventList (s.stmObjects i).eventNum e) :
    ∃ r, STM_SetEvent s h e = some r ∧ r.ret = STM_RANGE_ERROR ∧ r.storage = s ∧
      (r.storage.stmObjects i).stateID = (s.stmObjects i).stateID ∧
      STM_GetState r.storage h = some (s.stmObjects i).stateID := by
  refine ⟨⟨STM_RANGE_ERROR, s, []⟩, setEvent_event_absent hcreated.1 hvalid habs,
    rfl, rfl, rfl, ?_⟩
  obtain ⟨h0, h8, _⟩ := slotOf_eq_some hcreated.1
  unfold STM_GetState
  rw [if_neg (by unfold STM_MAX_NUM; omega)]
  simp only [hcreated.1]

/-- Witness of C4: the unknown event `0x1000` of StmTest.cpp. -/
theorem setEvent_unknown_event_witness :
    Created testRegistry 0 0 ∧ (testRegistry.stmObjects 0).AxesValid ∧
      Absent (testRegistry.stmObjects 0).eventList (testRegistry.stmObjects 0).eventNum 4096 ∧
      ∃ r, STM_SetEvent testRegistry 0 4096 = some r ∧ r.ret = STM_RANGE_ERROR ∧
        r.storage = testRegistry ∧
        (r.storage.stmObjects 0).stateID = (testRegistry.stmObjects 0).stateID ∧
        STM_GetState r.storage 0 = some (testRegistry.stmObjects 0).stateID :=
  ⟨by decide, by decide, by decide,
    setEvent_unknown_event testRegistry 0 4096 0 (by decide) (by decide) (by decide)⟩

/-- C5 (corrupted current state, P5): for a created handle `h` of a machine
whose state axis is well formed and does not hold the current state, and for
every event `e`, `STM_SetEvent(h, e)` returns `STM_RANGE_ERROR` and the current
state (the whole registry) is unchanged. -/
theorem setEvent_corrupted_state (s : STM_STORAGE) (h e : Int) (i : Fin 8)
    (hcreated : Created s h i)
    (hnum : IsInt16 (s.stmObjects i).stateNum)
    (hread : Readable (s.stmObjects i).stateList (s.stmObjects i).stateNum)
    (habs : Absent (s.stmObjects i).stateList (s.stmObjects i).stateNum
      (s.stmObjects i).stateID) :
    ∃ r, STM_SetEvent s h e = some r ∧ r.ret = STM_RANGE_ERROR ∧ r.storage = s ∧
      (r.storage.stmObjects i).stateID = (s.stmObjects i).stateID :=
  ⟨⟨STM_RANGE_ERROR, s, []⟩, setEvent_state_absent hcreated.1 hnum hread habs,
    rfl, rfl, rfl⟩

/-- Witness of C5: the second machine of StmTest.cpp, created with the initial
state `0x0400`, receives `EV_BtnJ`. -/
theorem setEvent_corrupted_state_witness :
    Created testRegistry2 1 1 ∧ IsInt16 (testRegistry2.stmObjects 1).stateNum ∧
      Readable (testRegistry2.stmObjects 1).stateList (testRegistry2.stmObjects 1).stateNum ∧
      Absent (testRegistry2.stmObjects 1).stateList (testRegistry2.stmObjects 1).stateNum
        (testRegistry2.stmObjects 1).stateID ∧
      ∃ r, STM_SetEvent testRegistry2 1 1 = some r ∧ r.ret = STM_RANGE_ERROR ∧
        r.storage = testRegistry2 ∧
        (r.storage.stmObjects 1).stateID = (testRegistry2.stmObjects 1).stateID :=
  ⟨by decide, by decide, by decide, by decide,
    setEvent_corrupted_state testRegistry2 1 1 1 (by decide) (by decide) (by decide)
      (by decide)⟩

/-- C6 (missing action) fails on a table with more states than events.  The
machine over `wideTable` is in state 13 (state index 3), event 22 is in the
event axis (index 2) and the cell at `2 * 4 + 3` has no action; the claim says
`STM_SetEvent` returns `STM_NO_ACTION`, but the second range check compares
`eventNum` (3) with the state index (3) and the call returns
`STM_RANGE_ERROR`. -/
theorem missing_action_wide_table_range_error :
    Created wideRegistry 0 0 ∧
      OccursFirstAt wideObject.stateList wideObject.stateNum wideObject.stateID 3 ∧
      OccursFirstAt wideObject.eventList wideObject.eventNum 22 2 ∧
      (readCell wideTable (2 * 4 + 3)).map (fun c => c.action.isSome) = some false ∧
      STM_SetEvent wideRegistry 0 22 = some ⟨STM_RANGE_ERROR, wideRegistry, []⟩ ∧
      STM_RANGE_ERROR ≠ STM_NO_ACTION :=
  ⟨by decide, by decide, by decide, by decide, rfl, by decide⟩

/-- C7 (handle validation in dispatch): in every registry state reachable from
the zero-initialised registry, for every handle `h` that no successful Create
has issued (`h < 0` or `h ≥ stmNum`, inside or outside the pool) and every
event `e`, `STM_SetEvent(h, e)` returns `STM_RANGE_ERROR`, invokes no action
and leaves the registry unchanged. -/
theorem setEvent_unissued_handle (s : STM_STORAGE) (h e : Int)
    (hreach : Reachable s) (hnot : h < 0 ∨ s.stmNum ≤ h) :
    STM_SetEvent s h e = some ⟨STM_RANGE_ERROR, s, []⟩ := by
  obtain ⟨h0, _, hzero⟩ := reachable_poolInv hreach
  by_cases hout : h < 0 ∨ STM_MAX_NUM ≤ h
  · unfold STM_SetEvent
    rw [if_pos hout]
  · unfold STM_MAX_NUM at hout
    have hslot := @slotOf_of_range h (by omega) (by omega)
    have hnum := hzero ⟨h.toNat, (Int.toNat_lt (by omega)).2 (by omega)⟩
      (by show s.stmNum ≤ ((h.toNat : Nat) : Int); omega)
    unfold STM_SetEvent
    rw [if_neg (by unfold STM_MAX_NUM; omega)]
    simp only [hslot, hnum]
    have hidx : ∀ (array : List Int) (key : Int),
        STM_GetIndex array (toSizeT 0) key = some (-1) := fun _ _ => rfl
    simp only [hidx]
    rw [if_pos (Or.inl (by omega))]

/-- Witness of C7: after the first Create call of StmTest.cpp, handle 5 has
not been issued. -/
theorem setEvent_unissued_handle_witness :
    Reachable testRegistry ∧ ((5 : Int) < 0 ∨ testRegistry.stmNum ≤ 5) ∧
      STM_SetEvent testRegistry 5 1 = some ⟨STM_RANGE_ERROR, testRegistry, []⟩ :=
  have hreach : Reachable testRegistry :=
    ⟨[.create testArgs], [0],
      fun c hc => by simp only [List.mem_singleton] at hc; subst hc; trivial, rfl⟩
  ⟨hreach, by decide, setEvent_unissued_handle testRegistry 5 1 hreach (by decide)⟩

/-- C8 (initial state, P1): for every registry with `0 ≤ stmNum < STM_MAX_NUM`
and all arguments, whatever the initial state (in the state axis or not),
`STM_Create` returns the handle `stmNum`, and `STM_GetState` of that handle
called right afterwards returns the initial state. -/
theorem create_then_getState (s : STM_STORAGE) (a : CreateArgs)
    (h0 : 0 ≤ s.stmNum) (hlt : s.stmNum < STM_MAX_NUM) :
    ∃ s1, STM_Create s a.matrix a.stateList a.stateNum a.eventList a.eventNum
        a.initialStateID = some (s.stmNum, s1) ∧
      STM_GetState s1 s.stmNum = some a.initialStateID := by
  obtain ⟨s1, i, hc, hslot, _, hobj, _⟩ := create_success s a h0 hlt
  refine ⟨s1, hc, ?_⟩
  unfold STM_GetState
  rw [if_neg (by omega)]
  simp only [hslot, hobj]

/-- Witness of C8: the second Create call of StmTest.cpp, whose initial state
`0x0400` is not in the state axis. -/
theorem create_then_getState_witness :
    (0 : Int) ≤ testRegistry.stmNum ∧ testRegistry.stmNum < STM_MAX_NUM ∧
      ∃ s1, STM_Create testRegistry testArgs2.matrix testArgs2.stateList
          testArgs2.stateNum testArgs2.eventList testArgs2.eventNum
          testArgs2.initialStateID = some (testRegistry.stmNum, s1) ∧
        STM_GetState s1 testRegistry.stmNum = some testArgs2.initialStateID :=
  ⟨by decide, by decide,
    create_then_getState testRegistry testArgs2 (by decide) (by decide)⟩

/-- C9 (capacity, P6): on every registry whose count equals `STM_MAX_NUM`, and
for all arguments, `STM_Create` returns `STM_NOT_ENOUGH_MEMORY` and the
registry is unchanged; in particular any 8 Create calls on the empty registry
succeed, with the handles `0 .. 7`, and lead to a registry on which a further
Create call fails that way. -/
theorem create_capacity_exhausted (s : STM_STORAGE) (a : CreateArgs)
    (as : List CreateArgs) (hfull : s.stmNum = STM_MAX_NUM) (hlen : as.length = 8) :
    STM_Create s a.matrix a.stateList a.stateNum a.eventList a.eventNum
        a.initialStateID = some (STM_NOT_ENOUGH_MEMORY, s) ∧
      ∃ s8, run STM_STORAGE.empty (as.map STM_CALL.create)
          = some ([0, 1, 2, 3, 4, 5, 6, 7], s8) ∧
        s8.stmNum = STM_MAX_NUM ∧
        STM_Create s8 a.matrix a.stateList a.stateNum a.eventList a.eventNum
          a.initialStateID = some (STM_NOT_ENOUGH_MEMORY, s8) := by
  refine ⟨create_full s a (le_of_eq hfull.symm), ?_⟩
  obtain ⟨s8, hrun, hnum⟩ := run_creates as STM_STORAGE.empty (by decide)
    (by rw [hlen]; decide)
  rw [hlen] at hrun hnum
  have hnum8 : s8.stmNum = STM_MAX_NUM := by rw [hnum]; rfl
  exact ⟨s8, hrun, hnum8, create_full s8 a (le_of_eq hnum8.symm)⟩

/-- Witness of C9: 8 Create calls with the arguments of StmTest.cpp fill the
pool. -/
theorem create_capacity_exhausted_witness :
    fullRegistry.stmNum = STM_MAX_NUM ∧ (List.replicate 8 testArgs).length = 8 ∧
      STM_Create fullRegistry testArgs.matrix testArgs.stateList testArgs.stateNum
          testArgs.eventList testArgs.eventNum testArgs.initialStateID
        = some (STM_NOT_ENOUGH_MEMORY, fullRegistry) ∧
      ∃ s8, run STM_STORAGE.empty ((List.replicate 8 testArgs).map STM_CALL.create)
          = some ([0, 1, 2, 3, 4, 5, 6, 7], s8) ∧
        s8.stmNum = STM_MAX_NUM ∧
        STM_Create s8 testArgs.matrix testArgs.stateList testArgs.stateNum
          testArgs.eventList testArgs.eventNum testArgs.initialStateID
          = some (STM_NOT_ENOUGH_MEMORY, s8) :=
  ⟨by decide, by decide,
    create_capacity_exhausted fullRegistry testArgs (List.replicate 8 testArgs)
      (by decide) (by decide)⟩

/-- C10 (handle issuance): on every registry with count `n`, `0 ≤ n <
STM_MAX_NUM`, `STM_Create` returns exactly `n` and the count afterwards is
`n + 1`; and along every call sequence from the empty registry, whatever
SetEvent, SetState and GetState calls it holds, the successful Create calls
return `0, 1, 2, ...` in call order, up to the final count, which is at most
`STM_MAX_NUM`. -/
theorem create_issues_next_handle (s : STM_STORAGE) (a : CreateArgs)
    (calls : List STM_CALL) (hs : List Int) (s2 : STM_STORAGE)
    (h0 : 0 ≤ s.stmNum) (hlt : s.stmNum < STM_MAX_NUM)
    (hrun : run STM_STORAGE.empty calls = some (hs, s2)) :
    (∃ s1, STM_Create s a.matrix a.stateList a.stateNum a.eventList a.eventNum
        a.initialStateID = some (s.stmNum, s1) ∧ s1.stmNum = s.stmNum + 1) ∧
      hs = (List.range s2.stmNum.toNat).map (fun n : Nat => (n : Int)) ∧
      s2.stmNum ≤ STM_MAX_NUM := by
  obtain ⟨s1, _, hc, _, hnum, _, _⟩ := create_success s a h0 hlt
  obtain ⟨_, h8, hlist⟩ := run_handles calls STM_STORAGE.empty s2 hs (by decide)
    (by decide) hrun
  refine ⟨⟨s1, hc, hnum⟩, ?_, h8⟩
  have hzero : STM_STORAGE.empty.stmNum = 0 := rfl
  rw [hlist, List.range_eq_range', hzero, Int.sub_zero]
  rfl

/-- Witness of C10: the calls of `main` of StmTest.cpp, with SetEvent, GetState
and SetState calls between its two Create calls, issue the handles 0 and 1; a
third Create call on the registry after the first one would return 1. -/
theorem create_issues_next_handle_witness :
    (0 : Int) ≤ testRegistry.stmNum ∧ testRegistry.stmNum < STM_MAX_NUM ∧
      run STM_STORAGE.empty testCalls = some (testFinal.1, testFinal.2) ∧
      testFinal.1 = [0, 1] ∧ testFinal.2.stmNum = 2 ∧
      ((∃ s1, STM_Create testRegistry testArgs2.matrix testArgs2.stateList
          testArgs2.stateNum testArgs2.eventList testArgs2.eventNum
          testArgs2.initialStateID = some (testRegistry.stmNum, s1) ∧
          s1.stmNum = testRegistry.stmNum + 1) ∧
        testFinal.1 = (List.range testFinal.2.stmNum.toNat).map (fun n : Nat => (n : Int)) ∧
        testFinal.2.stmNum ≤ STM_MAX_NUM) :=
  ⟨by decide, by decide, rfl, by decide, by decide,
    create_issues_next_handle testRegistry testArgs2 testCalls testFinal.1 testFinal.2
      (by decide) (by decide) rfl⟩

/-- C11 (debug override, P7): for every handle `h` with `0 ≤ h < STM_MAX_NUM`
and every state id `v`, in the state axis or not, `STM_SetState(h, v)` sets
the current state of slot `h` to `v`, whatever it was before and whatever the
table holds, and `STM_GetState(h)` called right afterwards returns `v`. -/
theorem setState_then_getState (s : STM_STORAGE) (h v : Int)
    (h0 : 0 ≤ h) (hlt : h < STM_MAX_NUM) :
    ∃ s1 i, STM_SetState s h v = some s1 ∧ slotOf h = some i ∧
      (s1.stmObjects i).stateID = v ∧ STM_GetState s1 h = some v := by
  unfold STM_MAX_NUM at hlt
  have hslot := slotOf_of_range h0 hlt
  refine ⟨s.writeStateID ⟨h.toNat, (Int.toNat_lt h0).2 hlt⟩ v, _, ?_, hslot, ?_, ?_⟩
  · unfold STM_SetState
    simp only [hslot]
  · simp [STM_STORAGE.writeStateID]
  · unfold STM_GetState
    rw [if_neg (by unfold STM_MAX_NUM; omega)]
    simp [hslot, STM_STORAGE.writeStateID]

/-- Witness of C11: `STM_SetState(stmID2, ST_Tt)` of StmTest.cpp, and the value
`0x0400`, which is not in the state axis, on the first machine. -/
theorem setState_then_getState_witness :
    (0 : Int) ≤ 0 ∧ (0 : Int) < STM_MAX_NUM ∧
      ∃ s1 i, STM_SetState testRegistry2 0 1024 = some s1 ∧ slotOf 0 = some i ∧
        (s1.stmObjects i).stateID = 1024 ∧ STM_GetState s1 0 = some 1024 :=
  ⟨by decide, by decide, setState_then_getState testRegistry2 0 1024 (by decide) (by decide)⟩

/-- C13 (table layout) fails for a table with more than 32768 cells.  The
machine of `bigRegistry` has 182 states and 182 events (both counts are
`int16_t` values), well formed axes and a table of exactly `182 * 182` cells;
its state 181 is at state index 181 and the event 181 at event index 181, so
the cell of the layout contract is at `181 * 182 + 181 = 33123`, inside the
table.  The claim says the 16-bit arithmetic yields that exact value; the
variable `index` of `STM_SetEvent`, declared `int16_t`, holds `-32413`
instead, and the call reads `matrix[-32413]`, outside the table. -/
theorem table_index_wraps_on_large_table :
    STM_Create STM_STORAGE.empty bigTable bigAxis 182 bigAxis 182 181
        = some (0, bigRegistry) ∧
      IsInt16 bigObject.stateNum ∧ IsInt16 bigObject.eventNum ∧
      Readable bigObject.stateList bigObject.stateNum ∧
      Readable bigObject.eventList bigObject.eventNum ∧
      (bigObject.matrix.length : Int) = bigObject.eventNum * bigObject.stateNum ∧
      OccursFirstAt bigObject.stateList bigObject.stateNum bigObject.stateID 181 ∧
      OccursFirstAt bigObject.eventList bigObject.eventNum 181 181 ∧
      ((181 : Nat) : Int) * bigObject.stateNum + ((181 : Nat) : Int) = 33123 ∧
      STM_SetEvent.index bigRegistry 0 181 = some (-32413) ∧
      STM_SetEvent bigRegistry 0 181 = none := by
  have hslot : slotOf 0 = some (0 : Fin 8) := by decide
  have hidx : STM_SetEvent.index bigRegistry 0 181 = some (-32413) :=
    (@index_eq_some_iff bigRegistry 0 181 (-32413) 0 hslot (by decide) (by decide)).2
      ⟨181, 181, bigAxis_occurs, bigAxis_occurs, by decide, by decide⟩
  refine ⟨rfl, by decide, by decide, bigAxis_readable, bigAxis_readable, ?_,
    bigAxis_occurs, bigAxis_occurs, by decide, hidx, ?_⟩
  · show ((List.replicate 33124 (⟨some Nop, 0⟩ : STM_CELL)).length : Int) = 182 * 182
    rw [List.length_replicate]
    rfl
  · rw [setEvent_of_index hslot hidx]
    rfl

/-- C14 (axis index resolver): for an axis array holding at least `n` elements,
`0 ≤ n ≤ 32767`, and every key, `STM_GetIndex(array, n, key)` returns a value;
it returns the index `i` whenever the key occurs among the first `n` elements
first at `i` (every earlier element differs from the key), and it returns `-1`
if and only if the key does not occur among the first `n` elements. -/
theorem getIndex_first_match (array : List Int) (n key : Int)
    (hn0 : 0 ≤ n) (hn : n ≤ 32767) (hread : Readable array n) :
    (∃ r, STM_GetIndex array n key = some r) ∧
      (∀ i, OccursFirstAt array n key i → STM_GetIndex array n key = some (i : Int)) ∧
      (STM_GetIndex array n key = some (-1) ↔ Absent array n key) := by
  have h16 : IsInt16 n := by unfold IsInt16; omega
  have hsz : toSizeT n = n := toSizeT_of_range hn0 hn
  have hfound : ∀ i, OccursFirstAt array n key i →
      STM_GetIndex array n key = some (i : Int) := by
    intro i hi
    have := getIndex_found h16 hi
    rwa [hsz] at this
  have habsent : Absent array n key → STM_GetIndex array n key = some (-1) := by
    intro ha
    have := getIndex_absent h16 hread ha
    rwa [hsz] at this
  refine ⟨?_, hfound, ?_, habsent⟩
  · rcases occurs_or_absent array n key with ⟨i, hi⟩ | ha
    · exact ⟨_, hfound i hi⟩
    · exact ⟨_, habsent ha⟩
  · intro hm1
    rcases occurs_or_absent array n key with ⟨i, hi⟩ | ha
    · rw [hfound i hi] at hm1
      have := Option.some.inj hm1
      omega
    · exact ha

/-- Witness of C14: an axis with duplicate identifiers; the key 7 occurs at
the indices 1 and 3 and is resolved to 1. -/
theorem getIndex_first_match_witness :
    (0 : Int) ≤ 4 ∧ (4 : Int) ≤ 32767 ∧ Readable [5, 7, 5, 7] 4 ∧
      OccursFirstAt [5, 7, 5, 7] 4 7 1 ∧ Absent [5, 7, 5, 7] 4 9 ∧
      STM_GetIndex [5, 7, 5, 7] 4 7 = some 1 ∧ STM_GetIndex [5, 7, 5, 7] 4 9 = some (-1) :=
  have hw := getIndex_first_match [5, 7, 5, 7] 4 7 (by decide) (by decide) (by decide)
  ⟨by decide, by decide, by decide, by decide, by decide, hw.2.1 1 (by decide),
    by decide⟩

/-- C16 (registry count invariant): in every registry state reachable from the
empty registry the count lies in `0 .. STM_MAX_NUM`; a further call (with its
handle in range) never decreases the count and keeps it at most `STM_MAX_NUM`,
and it changes the count only if it is a Create call that succeeds, returning
the old count and incrementing it by one. -/
theorem count_invariant (s s1 : STM_STORAGE) (c : STM_CALL) (r : Option Int)
    (hreach : Reachable s) (hrange : c.HandleInRange) (hex : c.exec s = some (r, s1)) :
    0 ≤ s.stmNum ∧ s.stmNum ≤ STM_MAX_NUM ∧
      s.stmNum ≤ s1.stmNum ∧ s1.stmNum ≤ STM_MAX_NUM ∧
      (s1.stmNum ≠ s.stmNum →
        (∃ a, c = STM_CALL.create a) ∧ r = some s.stmNum ∧ s1.stmNum = s.stmNum + 1) ∧
      Reachable s1 := by
  have hinv := reachable_poolInv hreach
  obtain ⟨h0, h8, _⟩ := hinv
  have hinv1 := exec_poolInv (reachable_poolInv hreach) hex
  refine ⟨h0, h8, ?_, hinv1.2.1, ?_, ?_⟩
  · rcases exec_effect h0 hex with ⟨_, hnum, _⟩ | ⟨_, _, hnum, _⟩ <;> omega
  · intro hne
    rcases exec_effect h0 hex with ⟨_, hnum, _⟩ | ⟨hiss, _, hnum, _⟩
    · exact absurd hnum hne
    · obtain ⟨hc, hr, _⟩ := issued_eq_some hiss
      exact ⟨hc, hr, hnum⟩
  · obtain ⟨calls, hs, hall, hrun⟩ := hreach
    obtain ⟨hs1, hrun1⟩ := run_snoc hrun hex
    refine ⟨calls ++ [c], hs1, fun d hd => ?_, hrun1⟩
    rcases List.mem_append.1 hd with hd | hd
    · exact hall d hd
    · rw [List.mem_singleton.1 hd]
      exact hrange

/-- Witness of C16: the second Create call of StmTest.cpp on the registry left
by the first one raises the count from 1 to 2. -/
theorem count_invariant_witness :
    Reachable testRegistry ∧ (STM_CALL.create testArgs2).HandleInRange ∧
      (STM_CALL.create testArgs2).exec testRegistry = some (some 1, testRegistry2) ∧
      (0 ≤ testRegistry.stmNum ∧ testRegistry.stmNum ≤ STM_MAX_NUM ∧
        testRegistry.stmNum ≤ testRegistry2.stmNum ∧ testRegistry2.stmNum ≤ STM_MAX_NUM ∧
        (testRegistry2.stmNum ≠ testRegistry.stmNum →
          (∃ a, STM_CALL.create testArgs2 = STM_CALL.create a) ∧
            some (1 : Int) = some testRegistry.stmNum ∧
            testRegistry2.stmNum = testRegistry.stmNum + 1) ∧
        Reachable testRegistry2) :=
  ⟨testRegistry_reachable, trivial, rfl,
    count_invariant testRegistry testRegistry2 (.create testArgs2) (some 1)
      testRegistry_reachable trivial rfl⟩

/-- C20 (table access stays in bounds): for a machine with positive counts,
`eventNum * stateNum ≤ 32767` and a table of exactly `eventNum * stateNum`
cells, whenever `STM_SetEvent` passes its range checks and computes the table
index, that index is `ei * stateNum + si` for resolved indices
`si < stateNum` and `ei < eventNum`, it satisfies
`0 ≤ index < eventNum * stateNum`, and the read of `matrix[index]` finds a
cell: the call does not leave the table. -/
theorem table_access_in_bounds (s : STM_STORAGE) (h e idx : Int) (i : Fin 8)
    (hslot : slotOf h = some i)
    (hs : 0 < (s.stmObjects i).stateNum) (he : 0 < (s.stmObjects i).eventNum)
    (hsz : (s.stmObjects i).eventNum * (s.stmObjects i).stateNum ≤ 32767)
    (hlen : ((s.stmObjects i).matrix.length : Int)
      = (s.stmObjects i).eventNum * (s.stmObjects i).stateNum)
    (hidx : STM_SetEvent.index s h e = some idx) :
    (∃ si ei : Nat, (si : Int) < (s.stmObjects i).stateNum ∧
        (ei : Int) < (s.stmObjects i).eventNum ∧
        idx = (ei : Int) * (s.stmObjects i).stateNum + si) ∧
      0 ≤ idx ∧ idx < (s.stmObjects i).eventNum * (s.stmObjects i).stateNum ∧
      ∃ cell, readCell (s.stmObjects i).matrix idx = some cell ∧
        STM_SetEvent s h e = some (STM_SetEvent.onCell s i e idx cell) := by
  have hle1 : (s.stmObjects i).stateNum
      ≤ (s.stmObjects i).eventNum * (s.stmObjects i).stateNum := by nlinarith
  have hle2 : (s.stmObjects i).eventNum
      ≤ (s.stmObjects i).eventNum * (s.stmObjects i).stateNum := by nlinarith
  have hsn : IsInt16 (s.stmObjects i).stateNum := by unfold IsInt16; omega
  have hen : IsInt16 (s.stmObjects i).eventNum := by unfold IsInt16; omega
  obtain ⟨si, ei, hsi, hei, _, hval⟩ := (index_eq_some_iff hslot hsn hen).1 hidx
  have hsi1 : si < (s.stmObjects i).stateNum.toNat := hsi.1
  have hei1 : ei < (s.stmObjects i).eventNum.toNat := hei.1
  have hsi2 : (si : Int) < (s.stmObjects i).stateNum := by omega
  have hei2 : (ei : Int) < (s.stmObjects i).eventNum := by omega
  have hlow : 0 ≤ (ei : Int) * (s.stmObjects i).stateNum :=
    Int.mul_nonneg (Int.ofNat_nonneg ei) (by omega)
  have hup : (ei : Int) * (s.stmObjects i).stateNum + si
      < (s.stmObjects i).eventNum * (s.stmObjects i).stateNum := by nlinarith
  have h16 : IsInt16 ((ei : Int) * (s.stmObjects i).stateNum + si) := by
    unfold IsInt16
    omega
  rw [wrap16_of_isInt16 h16] at hval
  have h0 : 0 ≤ idx := by omega
  have hlt : idx < (s.stmObjects i).eventNum * (s.stmObjects i).stateNum := by omega
  obtain ⟨cell, hcell⟩ := @readCell_in_bounds (s.stmObjects i).matrix idx h0 (by omega)
  refine ⟨⟨si, ei, hsi2, hei2, hval⟩, h0, hlt, cell, hcell, ?_⟩
  rw [setEvent_of_index hslot hidx, hcell]
  rfl

/-- Witness of C20: `STM_SetEvent(stmID, EV_BtnJ)` of StmTest.cpp on the table
of `8 * 6` cells. -/
theorem table_access_in_bounds_witness :
    slotOf 0 = some (0 : Fin 8) ∧
      0 < (testRegistry.stmObjects 0).stateNum ∧ 0 < (testRegistry.stmObjects 0).eventNum ∧
      (testRegistry.stmObjects 0).eventNum * (testRegistry.stmObjects 0).stateNum ≤ 32767 ∧
      ((testRegistry.stmObjects 0).matrix.length : Int)
        = (testRegistry.stmObjects 0).eventNum * (testRegistry.stmObjects 0).stateNum ∧
      STM_SetEvent.index testRegistry 0 1 = some 6 ∧
      (0 : Int) ≤ 6 ∧
      (6 : Int) < (testRegistry.stmObjects 0).eventNum * (testRegistry.stmObjects 0).stateNum :=
  have hw := table_access_in_bounds testRegistry 0 1 6 0 (by decide) (by decide)
    (by decide) (by decide) (by decide) (by decide)
  ⟨by decide, by decide, by decide, by decide, by decide, by decide, hw.2.1, hw.2.2.1⟩

/-- C12 (GetState result convention) fails for a machine created with a
negative initial state: after `STM_Create(..., -2)` on the empty registry the
handle 0 is a created handle of a reachable registry, and `STM_GetState(0)`
returns the state id `-2`, for which `STM_IS_ERROR` is true. -/
theorem getState_negative_state :
    STM_Create STM_STORAGE.empty negArgs.matrix negArgs.stateList negArgs.stateNum
        negArgs.eventList negArgs.eventNum negArgs.initialStateID = some (0, negRegistry) ∧
      Reachable negRegistry ∧ Created negRegistry 0 0 ∧
      STM_GetState negRegistry 0 = some (-2) ∧ ¬ ((0 : Int) ≤ -2) ∧
      STM_IS_ERROR (-2) = true :=
  ⟨rfl,
    ⟨[.create negArgs], [0],
      fun c hc => by simp only [List.mem_singleton] at hc; subst hc; trivial, rfl⟩,
    by decide, rfl, by decide, rfl⟩

/-- C12 as amended: in every registry state reached from the empty registry by
calls that hand only non-negative state ids to the engine (initial states,
next-state fields other than `STM_AMBIGUOUS`, values returned by the actions of
`STM_AMBIGUOUS` cells, states given to SetState), for every created handle `h`,
`STM_GetState(h)` returns the current state of the machine, which is `≥ 0`, so
`STM_IS_ERROR` of it is false. -/
theorem getState_nonneg_of_nonneg_inputs (calls : List STM_CALL) (hs : List Int)
    (s : STM_STORAGE) (h : Int) (i : Fin 8)
    (hin : ∀ c ∈ calls, c.NonnegStates)
    (hrun : run STM_STORAGE.empty calls = some (hs, s))
    (hcreated : Created s h i) :
    ∃ v, STM_GetState s h = some v ∧ v = (s.stmObjects i).stateID ∧ 0 ≤ v ∧
      STM_IS_ERROR v = false := by
  have hinv := run_statesNonneg calls STM_STORAGE.empty s hs statesNonneg_empty hin hrun
  obtain ⟨h0, h8, _⟩ := slotOf_eq_some hcreated.1
  refine ⟨(s.stmObjects i).stateID, ?_, rfl, (hinv i).1, ?_⟩
  · unfold STM_GetState
    rw [if_neg (by unfold STM_MAX_NUM; omega)]
    simp only [hcreated.1]
  · unfold STM_IS_ERROR
    have := (hinv i).1
    simp only [decide_eq_false_iff_not]
    omega

/-- Witness of C12 as amended: after the calls of `main` of StmTest.cpp the
first machine is in state `ST_Jj`. -/
theorem getState_nonneg_of_nonneg_inputs_witness :
    run STM_STORAGE.empty testCalls = some (testFinal.1, testFinal.2) ∧
      Created testFinal.2 0 0 ∧ STM_GetState testFinal.2 0 = some 3 ∧
      ∃ v, STM_GetState testFinal.2 0 = some v ∧
        v = (testFinal.2.stmObjects 0).stateID ∧ 0 ≤ v ∧ STM_IS_ERROR v = false :=
  ⟨rfl, by decide, rfl,
    getState_nonneg_of_nonneg_inputs testCalls testFinal.1 testFinal.2 0 0
      testCalls_nonneg rfl (by decide)⟩

/-- C17 (frame of the operations): for a handle `h` in `0 .. STM_MAX_NUM - 1`
(slot `i`), `STM_SetEvent(h, e)` and `STM_SetState(h, v)` change at most the
current state of slot `i` (the count, the table, the axes and the counts of
every slot and the current state of every other slot stay), `STM_GetState(h)`
leaves the registry as it is, and a successful `STM_Create` returns the old
count and writes only the slot of that index and the count: every other slot,
in particular every instance created before, is unchanged. -/
theorem operations_frame (s : STM_STORAGE) (h e v : Int) (i : Fin 8) (a : CreateArgs)
    (hslot : slotOf h = some i) :
    (∀ r, STM_SetEvent s h e = some r → FrameExceptState s r.storage i) ∧
      (∀ s1, STM_SetState s h v = some s1 → FrameExceptState s s1 i) ∧
      (∀ r s1, (STM_CALL.getState h).exec s = some (r, s1) → s1 = s) ∧
      (∀ k s1, STM_Create s a.matrix a.stateList a.stateNum a.eventList a.eventNum
          a.initialStateID = some (k, s1) → 0 ≤ k →
        ∃ ik, slotOf k = some ik ∧ k = s.stmNum ∧ s1.stmNum = wrap16 (s.stmNum + 1) ∧
          (∀ j, j ≠ ik → s1.stmObjects j = s.stmObjects j) ∧
          ∀ j : Fin 8, ((j : Nat) : Int) < s.stmNum → s1.stmObjects j = s.stmObjects j) := by
  refine ⟨fun r hr => ?_, fun s1 hs1 => ?_, fun r s1 hg => ?_, fun k s1 hc hk => ?_⟩
  · rcases setEvent_storage_cases hr with h1 | ⟨i1, w, hslot1, h1⟩
    · rw [h1]
      exact frameExceptState_refl s i
    · rw [hslot] at hslot1
      cases hslot1
      rw [h1]
      exact frameExceptState_writeStateID s i w
  · unfold STM_SetState at hs1
    simp only [hslot, Option.some.injEq] at hs1
    rw [← hs1]
    exact frameExceptState_writeStateID s i v
  · simp only [STM_CALL.exec, Option.map_eq_some', Prod.mk.injEq] at hg
    obtain ⟨_, _, _, hs1⟩ := hg
    exact hs1.symm
  · unfold STM_Create at hc
    simp only at hc
    split at hc
    · simp only [Option.some.injEq, Prod.mk.injEq] at hc
      rw [← hc.1] at hk
      exact absurd hk (by decide)
    · cases hslotk : slotOf s.stmNum with
      | none => rw [hslotk] at hc; cases hc
      | some ik =>
        rw [hslotk] at hc
        simp only [Option.some.injEq, Prod.mk.injEq] at hc
        obtain ⟨hk1, hs1⟩ := hc
        subst hk1 hs1
        refine ⟨ik, hslotk, rfl, rfl, fun j hj => by simp [hj], fun j hj => ?_⟩
        have hne : j ≠ ik := by
          intro hji
          subst hji
          have := (slotOf_eq_some hslotk).2.2
          omega
        simp [hne]

/-- Witness of C17: on the registry after both Create calls of StmTest.cpp,
`STM_SetEvent(0, EV_BtnJ)` and `STM_SetState(0, 0x0400)` leave the second
machine and all configuration untouched, and a third Create call returns 2 and
leaves the slots 0 and 1 untouched. -/
theorem operations_frame_witness :
    slotOf 0 = some (0 : Fin 8) ∧
      STM_SetEvent testRegistry2 0 1
        = some (STM_SetEvent.onCell testRegistry2 0 1 6 ⟨some OnBtnJ, 3⟩) ∧
      FrameExceptState testRegistry2
        (STM_SetEvent.onCell testRegistry2 0 1 6 ⟨some OnBtnJ, 3⟩).storage 0 ∧
      STM_SetState testRegistry2 0 1024 = some (testRegistry2.writeStateID 0 1024) ∧
      FrameExceptState testRegistry2 (testRegistry2.writeStateID 0 1024) 0 ∧
      (∀ k s1, STM_Create testRegistry2 testArgs.matrix testArgs.stateList
          testArgs.stateNum testArgs.eventList testArgs.eventNum
          testArgs.initialStateID = some (k, s1) → 0 ≤ k →
        ∃ ik, slotOf k = some ik ∧ k = testRegistry2.stmNum ∧
          s1.stmNum = wrap16 (testRegistry2.stmNum + 1) ∧
          (∀ j, j ≠ ik → s1.stmObjects j = testRegistry2.stmObjects j) ∧
          ∀ j : Fin 8, ((j : Nat) : Int) < testRegistry2.stmNum →
            s1.stmObjects j = testRegistry2.stmObjects j) :=
  have hw := operations_frame testRegistry2 0 1 1024 0 testArgs (by decide)
  ⟨by decide, rfl, hw.1 _ rfl, rfl, hw.2.1 _ rfl, hw.2.2.2⟩

/-- C18 (SetState on an invalid handle) fails: `STM_SetState(8, 0)` tests
`stmID >= STM_MAX_NUM` but only prints a message and goes on to write
`stmObjects[8].stateID`, outside the pool of 8 slots, so the call has no
defined result where the claim says it is a no-op; `STM_GetState(8)` and
`STM_SetEvent(8, 0)` return `STM_RANGE_ERROR` after the same test. -/
theorem setState_invalid_handle_writes_outside_pool :
    slotOf 8 = none ∧ STM_SetState testRegistry 8 0 = none ∧
      STM_GetState testRegistry 8 = some STM_RANGE_ERROR ∧
      STM_SetEvent testRegistry 8 0 = some ⟨STM_RANGE_ERROR, testRegistry, []⟩ :=
  ⟨by decide, rfl, rfl, rfl⟩

/-- C19 (exact success condition of dispatch): `STM_SetEvent(h, e)` returns
`STM_OK` if and only if `0 ≤ h < STM_MAX_NUM`, the current state of slot `h`
occurs in its state axis (first at `si`), `e` occurs in its event axis,
`si < eventNum` (the second range check compares `eventNum` with the state
index) and the addressed cell has an action; it returns `STM_NO_ACTION`
exactly when the first four conditions hold and the addressed cell has no
action; every value it returns is `STM_OK`, `STM_RANGE_ERROR` or
`STM_NO_ACTION`, never `STM_NOT_ENOUGH_MEMORY` or `STM_NO_NEXT_STATE`; and on a
machine with well formed axes and a table covering them the call always
returns. -/
theorem setEvent_result_iff (s : STM_STORAGE) (h e : Int)
    (hint : ∀ i, slotOf h = some i →
      IsInt16 (s.stmObjects i).stateNum ∧ IsInt16 (s.stmObjects i).eventNum) :
    ((∃ r, STM_SetEvent s h e = some r ∧ r.ret = STM_OK) ↔
        ∃ cell, Addresses s h e cell ∧ cell.action ≠ none) ∧
      ((∃ r, STM_SetEvent s h e = some r ∧ r.ret = STM_NO_ACTION) ↔
        ∃ cell, Addresses s h e cell ∧ cell.action = none) ∧
      (∀ r, STM_SetEvent s h e = some r →
        r.ret = STM_OK ∨ r.ret = STM_RANGE_ERROR ∨ r.ret = STM_NO_ACTION) ∧
      (∀ r, STM_SetEvent s h e = some r →
        r.ret ≠ STM_NOT_ENOUGH_MEMORY ∧ r.ret ≠ STM_NO_NEXT_STATE) ∧
      ((∀ i, slotOf h = some i →
          (s.stmObjects i).AxesValid ∧ (s.stmObjects i).TableValid) →
        ∃ r, STM_SetEvent s h e = some r) := by
  have hcodes : ∀ r, STM_SetEvent s h e = some r →
      r.ret = STM_OK ∨ r.ret = STM_RANGE_ERROR ∨ r.ret = STM_NO_ACTION := by
    intro r hr
    rcases setEvent_cases hint hr with hrange | ⟨cell, i, idx, _, _, hcell⟩
    · rw [hrange]
      exact Or.inr (Or.inl rfl)
    · rw [hcell]
      by_cases hact : cell.action = none
      · exact Or.inr (Or.inr (onCell_ret_of_no_action hact))
      · exact Or.inl (onCell_ret_of_action hact)
  refine ⟨⟨?_, ?_⟩, ⟨?_, ?_⟩, hcodes, ?_, setEvent_returns⟩
  · rintro ⟨r, hr, hok⟩
    rcases setEvent_cases hint hr with hrange | ⟨cell, i, idx, haddr, _, hcell⟩
    · rw [hrange] at hok
      exact absurd hok (show STM_RANGE_ERROR ≠ STM_OK by decide)
    · refine ⟨cell, haddr, fun hact => ?_⟩
      rw [hcell, onCell_ret_of_no_action hact] at hok
      exact absurd hok (show STM_NO_ACTION ≠ STM_OK by decide)
  · rintro ⟨cell, haddr, hact⟩
    obtain ⟨i, idx, _, hres⟩ := addresses_setEvent hint haddr
    exact ⟨_, hres, onCell_ret_of_action hact⟩
  · rintro ⟨r, hr, hno⟩
    rcases setEvent_cases hint hr with hrange | ⟨cell, i, idx, haddr, _, hcell⟩
    · rw [hrange] at hno
      exact absurd hno (show STM_RANGE_ERROR ≠ STM_NO_ACTION by decide)
    · refine ⟨cell, haddr, ?_⟩
      by_contra hact
      rw [hcell, onCell_ret_of_action hact] at hno
      exact absurd hno (show STM_OK ≠ STM_NO_ACTION by decide)
  · rintro ⟨cell, haddr, hact⟩
    obtain ⟨i, idx, _, hres⟩ := addresses_setEvent hint haddr
    exact ⟨_, hres, onCell_ret_of_no_action hact⟩
  · intro r hr
    rcases hcodes r hr with hc | hc | hc <;> rw [hc] <;> exact ⟨by decide, by decide⟩

/-- Witness of C19: on the machine over `wideTable` (4 states, 3 events, state
index 3) the event 20 addresses no cell although state and event are in their
axes, and the call returns `STM_RANGE_ERROR`; on StmTest.cpp the event
`EV_BtnJ` addresses the cell `{OnBtnJ, ST_Jj}` and the call returns `STM_OK`. -/
theorem setEvent_result_iff_witness :
    (∀ i, slotOf 0 = some i →
        IsInt16 (testRegistry.stmObjects i).stateNum ∧
          IsInt16 (testRegistry.stmObjects i).eventNum) ∧
      Addresses testRegistry 0 1 ⟨some OnBtnJ, 3⟩ ∧
      (∃ r, STM_SetEvent testRegistry 0 1 = some r ∧ r.ret = STM_OK) ∧
      (∀ r, STM_SetEvent wideRegistry 0 20 = some r →
        r.ret = STM_OK ∨ r.ret = STM_RANGE_ERROR ∨ r.ret = STM_NO_ACTION) ∧
      STM_SetEvent wideRegistry 0 20 = some ⟨STM_RANGE_ERROR, wideRegistry, []⟩ :=
  have hint : ∀ i, slotOf 0 = some i →
      IsInt16 (testRegistry.stmObjects i).stateNum ∧
        IsInt16 (testRegistry.stmObjects i).eventNum := by decide
  have hintw : ∀ i, slotOf 0 = some i →
      IsInt16 (wideRegistry.stmObjects i).stateNum ∧
        IsInt16 (wideRegistry.stmObjects i).eventNum := by decide
  have haddr : Addresses testRegistry 0 1 ⟨some OnBtnJ, 3⟩ :=
    ⟨0, 0, 1, by decide, by decide, by decide, by decide, rfl⟩
  ⟨hint, haddr,
    (setEvent_result_iff testRegistry 0 1 hint).1.2 ⟨_, haddr, by simp⟩,
    (setEvent_result_iff wideRegistry 0 20 hintw).2.2.1, rfl⟩

end Stm
